import Mathlib

/-!
# Verification of the BDO patch-bot ingestion/dedup/report pipeline

Shallow embedding of the core of the repository:

* `BotDB.parse_date` — `BotDatabase._parse_date` (src/database.py, lines 65-140),
  including the five `strptime` formats, the three regex patterns and the
  tolerant numeric fallback scan.
* `BotDB.store_ai_report`, `get_latest_report`, `get_report_by_index`,
  `get_all_reports`, `count_reports`, `is_report_new` — the SQLite-backed
  report store (src/database.py).
* `LinkExtractor.generate_stable_id` — `BDOLinkExtractor._generate_stable_id`
  (src/link_extractor.py, lines 180-199), with a full MD5 implementation for
  the URL-hash fallback.
* `Ingestion.runCycle` / `Ingestion.aiAnalysisCycle` — the per-source loop of
  `EnhancedBDOPatchBot.ai_analysis_loop` (src/main.py, lines 84-125).

Machine conventions: Python strings are `List Char` / `String`; SQLite rows are
a Lean structure; `CURRENT_TIMESTAMP` is an explicit `Nat` parameter;
`INSERT OR REPLACE` deletes the conflicting `(source, patch_id)` row and
appends a fresh row with the next rowid; SQL `ORDER BY` is an insertion sort
by the exact sort key of the queries.  Fallible Python operations are modelled
with `Option`/`Except`.
-/

namespace BotDB

/-- Value of a decimal digit character (Python `int` on a digit). -/
def digVal (c : Char) : Nat := c.toNat - 48

/-- Decimal digit character (used to model Python's decimal rendering). -/
def digitChar (n : Nat) : Char := Char.ofNat (48 + n)

/-- Explicit orelse on `Option`, used to model regex backtracking alternatives
(first alternative wins). -/
def orE (a b : Option α) : Option α :=
  match a with
  | some x => some x
  | none => b

/-- Match exactly `n` decimal digits (the `strptime` `%Y` token is `\d\d\d\d`),
accumulating their value; returns the value and the rest of the string. -/
def parseNDigits : Nat → Nat → List Char → Option (Nat × List Char)
  | 0, acc, s => some (acc, s)
  | _ + 1, _, [] => none
  | n + 1, acc, c :: s =>
    if c.isDigit then parseNDigits n (acc * 10 + digVal c) s else none

/-- Match one literal character. -/
def expectCh (c : Char) : List Char → Option (List Char)
  | [] => none
  | x :: xs => if x = c then some xs else none

/-- Two decimal digits whose value lies in `[lo, hi]`.  With `lo := 1, hi := 12`
this is the two-digit part `1[0-2]|0[1-9]` of the `strptime` `%m` regex, with
`1, 31` the two-digit part of `%d`, and with `0, 99` the two-digit branch of a
regex `\d{1,2}` group. -/
def tok2 (lo hi : Nat) : List Char → Option (Nat × List Char)
  | c1 :: c2 :: rest =>
    if c1.isDigit then
      if c2.isDigit then
        if lo ≤ 10 * digVal c1 + digVal c2 ∧ 10 * digVal c1 + digVal c2 ≤ hi then
          some (10 * digVal c1 + digVal c2, rest)
        else none
      else none
    else none
  | _ => none

/-- One decimal digit with value in `[lo, hi]` (the one-digit branch `[1-9]` of
`%m`/`%d`, or `\d` of a regex `\d{1,2}` group). -/
def tok1 (lo hi : Nat) : List Char → Option (Nat × List Char)
  | c :: rest =>
    if c.isDigit ∧ lo ≤ digVal c ∧ digVal c ≤ hi then some (digVal c, rest) else none
  | [] => none

/-- `strptime` requires the format to consume the whole string
(`len(data_string) != found.end()` raises). -/
def ymdEnd (y m d : Nat) : List Char → Option (Nat × Nat × Nat)
  | [] => some (y, m, d)
  | _ :: _ => none

/-- Day token of `%Y<sep>%m<sep>%d` followed by end of string, with regex
backtracking between the two-digit and one-digit day alternatives. -/
def ymdDay (y m : Nat) (s : List Char) : Option (Nat × Nat × Nat) :=
  orE
    (match tok2 1 31 s with
     | some (d, s5) => ymdEnd y m d s5
     | none => none)
    (match tok1 1 9 s with
     | some (d, s5) => ymdEnd y m d s5
     | none => none)

/-- Separator then day, in `%Y<sep>%m<sep>%d`. -/
def ymdAfterM (sep : Char) (y m : Nat) (s : List Char) : Option (Nat × Nat × Nat) :=
  match expectCh sep s with
  | some s4 => ymdDay y m s4
  | none => none

/-- Month token of `%Y<sep>%m<sep>%d`, with backtracking. -/
def ymdMonth (sep : Char) (y : Nat) (s : List Char) : Option (Nat × Nat × Nat) :=
  orE
    (match tok2 1 12 s with
     | some (m, s3) => ymdAfterM sep y m s3
     | none => none)
    (match tok1 1 9 s with
     | some (m, s3) => ymdAfterM sep y m s3
     | none => none)

/-- Structural match of `datetime.strptime(s, '%Y<sep>%m<sep>%d')` (formats
`'%Y-%m-%d'`, `'%Y.%m.%d'`, `'%Y/%m/%d'` of `_parse_date`), before calendar
validation. -/
def matchYMD (sep : Char) (s : List Char) : Option (Nat × Nat × Nat) :=
  match parseNDigits 4 0 s with
  | some (y, s1) =>
    (match expectCh sep s1 with
     | some s2 => ymdMonth sep y s2
     | none => none)
  | none => none

/-- `'/'` then four-digit year then end, in `%m/%d/%Y`. -/
def mdyAfterD (m d : Nat) (s : List Char) : Option (Nat × Nat × Nat) :=
  match expectCh '/' s with
  | some s2 =>
    (match parseNDigits 4 0 s2 with
     | some (y, s3) => ymdEnd y m d s3
     | none => none)
  | none => none

/-- Day token of `%m/%d/%Y`, with backtracking. -/
def mdyDay (m : Nat) (s : List Char) : Option (Nat × Nat × Nat) :=
  orE
    (match tok2 1 31 s with
     | some (d, s4) => mdyAfterD m d s4
     | none => none)
    (match tok1 1 9 s with
     | some (d, s4) => mdyAfterD m d s4
     | none => none)

/-- `'/'` then day, in `%m/%d/%Y`. -/
def mdyAfterM (m : Nat) (s : List Char) : Option (Nat × Nat × Nat) :=
  match expectCh '/' s with
  | some s2 => mdyDay m s2
  | none => none

/-- Structural match of `datetime.strptime(s, '%m/%d/%Y')`. -/
def matchMDY (s : List Char) : Option (Nat × Nat × Nat) :=
  orE
    (match tok2 1 12 s with
     | some (m, s1) => mdyAfterM m s1
     | none => none)
    (match tok1 1 9 s with
     | some (m, s1) => mdyAfterM m s1
     | none => none)

/-- ASCII lower-casing, modelling Python's `str.lower`/`re.IGNORECASE` on the
ASCII month names involved. -/
def myToLower (c : Char) : Char :=
  if 65 ≤ c.toNat ∧ c.toNat ≤ 90 then Char.ofNat (c.toNat + 32) else c

/-- Case-insensitive three-letter English month abbreviation lookup (the
alternation of month names in the `strptime` `%b` regex and in the third
regex pattern of `_parse_date`; also the `month_names` dict). -/
def monthLookup (a b c : Char) : Option Nat :=
  if a = 'j' ∧ b = 'a' ∧ c = 'n' then some 1
  else if a = 'f' ∧ b = 'e' ∧ c = 'b' then some 2
  else if a = 'm' ∧ b = 'a' ∧ c = 'r' then some 3
  else if a = 'a' ∧ b = 'p' ∧ c = 'r' then some 4
  else if a = 'm' ∧ b = 'a' ∧ c = 'y' then some 5
  else if a = 'j' ∧ b = 'u' ∧ c = 'n' then some 6
  else if a = 'j' ∧ b = 'u' ∧ c = 'l' then some 7
  else if a = 'a' ∧ b = 'u' ∧ c = 'g' then some 8
  else if a = 's' ∧ b = 'e' ∧ c = 'p' then some 9
  else if a = 'o' ∧ b = 'c' ∧ c = 't' then some 10
  else if a = 'n' ∧ b = 'o' ∧ c = 'v' then some 11
  else if a = 'd' ∧ b = 'e' ∧ c = 'c' then some 12
  else none

/-- Match one of the twelve month abbreviations, case-insensitively. -/
def matchMonthName : List Char → Option (Nat × List Char)
  | c1 :: c2 :: c3 :: rest =>
    (match monthLookup (myToLower c1) (myToLower c2) (myToLower c3) with
     | some mo => some (mo, rest)
     | none => none)
  | _ => none

/-- Regex `\s+`: at least one whitespace character, maximal munch (`strptime`
replaces literal blanks in the format by `\s+`). -/
def skipWs1 : List Char → Option (List Char)
  | c :: rest =>
    if c.isWhitespace then some (rest.dropWhile Char.isWhitespace) else none
  | [] => none

/-- `','` then `\s+` then four-digit year then end, in `'%b %d, %Y'`. -/
def monDYAfterD (mo d : Nat) (s : List Char) : Option (Nat × Nat × Nat) :=
  match expectCh ',' s with
  | some s2 =>
    (match skipWs1 s2 with
     | some s3 =>
       (match parseNDigits 4 0 s3 with
        | some (y, s4) => ymdEnd y mo d s4
        | none => none)
     | none => none)
  | none => none

/-- Day token of `'%b %d, %Y'`, with backtracking. -/
def monDYDay (mo : Nat) (s : List Char) : Option (Nat × Nat × Nat) :=
  orE
    (match tok2 1 31 s with
     | some (d, s4) => monDYAfterD mo d s4
     | none => none)
    (match tok1 1 9 s with
     | some (d, s4) => monDYAfterD mo d s4
     | none => none)

/-- Structural match of `datetime.strptime(s, '%b %d, %Y')`. -/
def matchMonDY (s : List Char) : Option (Nat × Nat × Nat) :=
  match matchMonthName s with
  | some (mo, s1) =>
    (match skipWs1 s1 with
     | some s2 => monDYDay mo s2
     | none => none)
  | none => none

/-- Gregorian leap year, as in Python's `datetime`. -/
def isLeap (y : Nat) : Bool :=
  y % 4 == 0 && (y % 100 != 0 || y % 400 == 0)

/-- Days in a month, as validated by the `datetime` constructor. -/
def daysInMonth (y m : Nat) : Nat :=
  if m = 2 then (if isLeap y then 29 else 28)
  else if m = 4 ∨ m = 6 ∨ m = 9 ∨ m = 11 then 30
  else 31

/-- The `datetime(year, month, day)` constructor: `some` exactly when the triple
is a valid calendar date with `MINYEAR = 1 ≤ year ≤ 9999 = MAXYEAR`; `none`
models the `ValueError` caught by the surrounding `except`. -/
def checkDate (y m d : Nat) : Option (Nat × Nat × Nat) :=
  if 1 ≤ y ∧ y ≤ 9999 ∧ 1 ≤ m ∧ m ≤ 12 ∧ 1 ≤ d ∧ d ≤ daysInMonth y m then
    some (y, m, d)
  else none

/-- One `strptime` attempt of a `%Y<sep>%m<sep>%d` format: structural match,
then `datetime` validation. -/
def tryFmtYMD (sep : Char) (s : List Char) : Option (Nat × Nat × Nat) :=
  match matchYMD sep s with
  | some (y, m, d) => checkDate y m d
  | none => none

/-- The `strptime` attempt of `'%b %d, %Y'`. -/
def tryFmtMonDY (s : List Char) : Option (Nat × Nat × Nat) :=
  match matchMonDY s with
  | some (y, m, d) => checkDate y m d
  | none => none

/-- The `strptime` attempt of `'%m/%d/%Y'`. -/
def tryFmtMDY (s : List Char) : Option (Nat × Nat × Nat) :=
  match matchMDY s with
  | some (y, m, d) => checkDate y m d
  | none => none

/-- `re.search`: try the position matcher at every start position, leftmost
match wins. -/
def searchList (f : List Char → Option α) : List Char → Option α
  | [] => f []
  | c :: cs =>
    match f (c :: cs) with
    | some r => some r
    | none => searchList f cs

/-- `[.-]` character class. -/
def expectDotDash : List Char → Option (List Char)
  | x :: xs => if x = '.' ∨ x = '-' then some xs else none
  | [] => none

/-- `[slash-dash]` character class. -/
def expectSlashDash : List Char → Option (List Char)
  | x :: xs => if x = '/' ∨ x = '-' then some xs else none
  | [] => none

/-- Final `\d{1,2}` group of pattern 1 (nothing follows it, so greedy two
digits, else one). -/
def lastNum12 (s : List Char) : Option Nat :=
  match tok2 0 99 s with
  | some (d, _) => some d
  | none =>
    match tok1 0 9 s with
    | some (d, _) => some d
    | none => none

/-- `[.-]` then final day group, in pattern 1. -/
def p1AfterM (y m : Nat) (s : List Char) : Option (Nat × Nat × Nat) :=
  match expectDotDash s with
  | some s4 =>
    (match lastNum12 s4 with
     | some d => some (y, m, d)
     | none => none)
  | none => none

/-- Month group `\d{1,2}` of pattern 1, with backtracking. -/
def p1Month (y : Nat) (s : List Char) : Option (Nat × Nat × Nat) :=
  orE
    (match tok2 0 99 s with
     | some (m, s3) => p1AfterM y m s3
     | none => none)
    (match tok1 0 9 s with
     | some (m, s3) => p1AfterM y m s3
     | none => none)

/-- Pattern 1 `(\d{4})[.-](\d{1,2})[.-](\d{1,2})` matched at one position;
the groups are returned as (year, month, day) values. -/
def matchP1At (s : List Char) : Option (Nat × Nat × Nat) :=
  match parseNDigits 4 0 s with
  | some (y, s1) =>
    (match expectDotDash s1 with
     | some s2 => p1Month y s2
     | none => none)
  | none => none

/-- `[slash-dash]` then `\d{4}`, ending pattern 2; result is (month, day, year) as the
code reads the groups year-last. -/
def p2AfterD (m d : Nat) (s : List Char) : Option (Nat × Nat × Nat) :=
  match expectSlashDash s with
  | some s2 =>
    (match parseNDigits 4 0 s2 with
     | some (y, _) => some (m, d, y)
     | none => none)
  | none => none

/-- Second `\d{1,2}` group of pattern 2, with backtracking. -/
def p2Day (m : Nat) (s : List Char) : Option (Nat × Nat × Nat) :=
  orE
    (match tok2 0 99 s with
     | some (d, s3) => p2AfterD m d s3
     | none => none)
    (match tok1 0 9 s with
     | some (d, s3) => p2AfterD m d s3
     | none => none)

/-- `[slash-dash]` then day group, in pattern 2. -/
def p2AfterM (m : Nat) (s : List Char) : Option (Nat × Nat × Nat) :=
  match expectSlashDash s with
  | some s2 => p2Day m s2
  | none => none

/-- Pattern 2 `(\d{1,2})[slash-dash](\d{1,2})[slash-dash](\d{4})` matched at one position. -/
def matchP2At (s : List Char) : Option (Nat × Nat × Nat) :=
  orE
    (match tok2 0 99 s with
     | some (m, s1) => p2AfterM m s1
     | none => none)
    (match tok1 0 9 s with
     | some (m, s1) => p2AfterM m s1
     | none => none)

/-- `,?` then `\s+` then `\d{4}`, ending pattern 3.  (If the next character is
`','` the optional comma must be consumed: the alternative would require `\s+`
to match `','`, which is impossible.) -/
def p3AfterD (mo d : Nat) (s : List Char) : Option (Nat × Nat × Nat) :=
  let s2 := match s with
    | ',' :: r => r
    | _ => s
  match skipWs1 s2 with
  | some s3 =>
    (match parseNDigits 4 0 s3 with
     | some (y, _) => some (mo, d, y)
     | none => none)
  | none => none

/-- Day group `(\d{1,2})` of pattern 3, with backtracking. -/
def p3Day (mo : Nat) (s : List Char) : Option (Nat × Nat × Nat) :=
  orE
    (match tok2 0 99 s with
     | some (d, s3) => p3AfterD mo d s3
     | none => none)
    (match tok1 0 9 s with
     | some (d, s3) => p3AfterD mo d s3
     | none => none)

/-- Pattern 3 `(Month)\s+(\d{1,2}),?\s+(\d{4})` (case-insensitive) matched at
one position. -/
def matchP3At (s : List Char) : Option (Nat × Nat × Nat) :=
  match matchMonthName s with
  | some (mo, s1) =>
    (match skipWs1 s1 with
     | some s2 => p3Day mo s2
     | none => none)
  | none => none

/-- Pattern-1 attempt: leftmost `re.search` match, groups are year-first
(`re.match(r'\d{4}', groups[0])` holds), then `datetime` validation; an
invalid date falls through to the next pattern. -/
def tryPat1 (s : List Char) : Option (Nat × Nat × Nat) :=
  match searchList matchP1At s with
  | some (y, m, d) => checkDate y m d
  | none => none

/-- Pattern-2 attempt: year-last, numeric month first (`month, day, year =
groups`). -/
def tryPat2 (s : List Char) : Option (Nat × Nat × Nat) :=
  match searchList matchP2At s with
  | some (m, d, y) => checkDate y m d
  | none => none

/-- Pattern-3 attempt: year-last with named month mapped through
`month_names`. -/
def tryPat3 (s : List Char) : Option (Nat × Nat × Nat) :=
  match searchList matchP3At s with
  | some (mo, d, y) => checkDate y mo d
  | none => none

/-- `re.findall(r'\d+', s)`: the maximal runs of decimal digits, as strings. -/
def digitRunsAux : List Char → List Char → List (List Char)
  | [], acc => if acc.isEmpty then [] else [acc.reverse]
  | c :: cs, acc =>
    if c.isDigit then digitRunsAux cs (c :: acc)
    else if acc.isEmpty then digitRunsAux cs []
    else acc.reverse :: digitRunsAux cs []

/-- All maximal digit runs of the string. -/
def digitRuns (s : List Char) : List (List Char) := digitRunsAux s []

/-- Numeric value of a digit run (`int(num)`). -/
def toVal (ds : List Char) : Nat := ds.foldl (fun a c => a * 10 + digVal c) 0

/-- One iteration body of the fallback loop for a candidate year token `n`:
`remaining = [int(x) for x in numbers if x != num]` (note: every occurrence
textually equal to `n` is removed), month/day are the first two remaining
values, swapped when the presumed month exceeds 12, then `datetime`
validation. -/
def fbAttempt (all : List (List Char)) (n : List Char) : Option (Nat × Nat × Nat) :=
  match (all.filter (fun x => x != n)).map toVal with
  | m0 :: d0 :: _ =>
    let md := if m0 > 12 then (d0, m0) else (m0, d0)
    checkDate (toVal n) md.1 md.2
  | _ => none

/-- The fallback loop `for i, num in enumerate(numbers): if int(num) > 2000:`
— each candidate with value above 2000 is tried in order; an invalid date
`continue`s with the next candidate. -/
def fbLoop (all : List (List Char)) : List (List Char) → Option (Nat × Nat × Nat)
  | [] => none
  | n :: rest =>
    if toVal n > 2000 then
      match fbAttempt all n with
      | some t => some t
      | none => fbLoop all rest
    else fbLoop all rest

/-- The tolerant numeric fallback scan of `_parse_date` (lines 119-135):
requires at least three digit runs. -/
def fallbackScan (s : List Char) : Option (Nat × Nat × Nat) :=
  let nums := digitRuns s
  if nums.length ≥ 3 then fbLoop nums nums else none

/-- The full cascade of `_parse_date` on the stripped string: the five
`strptime` formats in source order, then the three regex patterns, then the
numeric fallback. -/
def dateTriple (s : List Char) : Option (Nat × Nat × Nat) :=
  orE (tryFmtYMD '-' s)
    (orE (tryFmtYMD '.' s)
      (orE (tryFmtMonDY s)
        (orE (tryFmtYMD '/' s)
          (orE (tryFmtMDY s)
            (orE (tryPat1 s)
              (orE (tryPat2 s)
                (orE (tryPat3 s) (fallbackScan s))))))))

/-- Decimal rendering of a year (`strftime('%Y')` on Linux/glibc prints the
year unpadded; all years produced by `checkDate` are at most 9999, so four
cases suffice). -/
def natDigits (n : Nat) : List Char :=
  if n < 10 then [digitChar n]
  else if n < 100 then [digitChar (n / 10), digitChar (n % 10)]
  else if n < 1000 then [digitChar (n / 100), digitChar (n / 10 % 10), digitChar (n % 10)]
  else [digitChar (n / 1000), digitChar (n / 100 % 10), digitChar (n / 10 % 10), digitChar (n % 10)]

/-- Zero-padded two-digit rendering (`strftime('%m')`, `strftime('%d')`). -/
def pad2ch (n : Nat) : List Char :=
  if n < 10 then ['0', digitChar n] else [digitChar (n / 10), digitChar (n % 10)]

/-- `parsed.strftime('%Y-%m-%d')`. -/
def isoOf (y m d : Nat) : String :=
  String.mk (natDigits y ++ '-' :: (pad2ch m ++ '-' :: pad2ch d))

/-- Python `str.strip()` on the character list (Python strips Unicode
whitespace; the embedding strips the ASCII whitespace that occurs in the
repository's date strings). -/
def stripChars (s : List Char) : List Char :=
  ((s.dropWhile Char.isWhitespace).reverse.dropWhile Char.isWhitespace).reverse

/-- `BotDatabase._parse_date` (src/database.py, lines 65-140): `None` for a
falsy input, otherwise strip the string, run the cascade and render the first
valid date found; `None` when everything fails. -/
def parse_date (s : String) : Option String :=
  if s = "" then none
  else
    match dateTriple (stripChars s.data) with
    | some (y, m, d) => some (isoOf y m d)
    | none => none

/-! ## The report store (src/database.py)

A row of the `ai_reports` table, the table state, and the store operations.
`generated_at` (SQL `CURRENT_TIMESTAMP`) is modelled as an explicit `Nat`
timestamp passed to the writing operations; `id` (`INTEGER PRIMARY KEY
AUTOINCREMENT`) is the monotonically increasing `rowId`.  `INSERT OR REPLACE`
with the `UNIQUE(source, patch_id)` constraint deletes any conflicting row and
inserts a fresh one with a fresh rowid. -/

/-- The scraped-item dict produced by the link extractor and stored as the
`patch_data` JSON column (`json.dumps`/`json.loads` round-trip is the
identity on it). -/
structure PatchData where
  id : String
  title : String
  date : String
  link : String
deriving DecidableEq

/-- A row of `ai_reports`. -/
structure Row where
  rowId : Nat
  source : String
  patch_id : String
  title : String
  date : String
  parsed_date : Option String
  link : String
  report_filename : String
  generated_at : Nat
  is_notified : Bool
  patch_data : PatchData
deriving DecidableEq

/-- The `ai_reports` table plus the `AUTOINCREMENT` counter. -/
structure DB where
  rows : List Row
  nextId : Nat
deriving DecidableEq

/-- Fresh database. -/
def DB.empty : DB := ⟨[], 1⟩

/-- `WHERE source = ? AND patch_id = ?`. -/
def keyMatches (src pid : String) (r : Row) : Bool :=
  r.source == src && r.patch_id == pid

/-- `BotDatabase.store_ai_report` (lines 142-171): parse the date, then
`INSERT OR REPLACE` keyed by `(source, patch_id)` with `generated_at =
CURRENT_TIMESTAMP` and `is_notified = FALSE`.  Always succeeds in the model
(storage-level failures are environmental). -/
def store_ai_report (db : DB) (patch : PatchData) (report_filename : String)
    (src : String) (now : Nat) : DB :=
  let parsed := parse_date patch.date
  let newRow : Row :=
    { rowId := db.nextId
      source := src
      patch_id := patch.id
      title := patch.title
      date := patch.date
      parsed_date := parsed
      link := patch.link
      report_filename := report_filename
      generated_at := now
      is_notified := false
      patch_data := patch }
  ⟨db.rows.filter (fun r => !(keyMatches src patch.id r)) ++ [newRow],
   db.nextId + 1⟩

/-- The dict built from a fetched row by the read queries. -/
structure Report where
  patch_id : String
  title : String
  date : String
  link : String
  report_filename : String
  generated_at : Nat
  patch_data : PatchData
  parsed_date : Option String
deriving DecidableEq

/-- Column projection of the `SELECT` queries. -/
def rowToReport (r : Row) : Report :=
  ⟨r.patch_id, r.title, r.date, r.link, r.report_filename, r.generated_at,
   r.patch_data, r.parsed_date⟩

/-! ### The sort key

All three read queries order by
`CASE WHEN parsed_date IS NOT NULL THEN parsed_date ELSE '1900-01-01' END
DESC, generated_at DESC, id DESC`.  `parsed_date` values compare as SQLite
TEXT, i.e. bytewise; on the ASCII strings involved this is the
codepoint-lexicographic order `strLtB`. -/

/-- Bytewise (lexicographic) strict comparison of strings as SQLite compares
TEXT values. -/
def strLtB : List Char → List Char → Bool
  | [], [] => false
  | [], _ :: _ => true
  | _ :: _, [] => false
  | a :: as, b :: bs =>
    if a < b then true else if b < a then false else strLtB as bs

/-- The first component of the sort key:
`CASE WHEN parsed_date IS NOT NULL THEN parsed_date ELSE '1900-01-01' END`. -/
def dateKey (r : Row) : List Char := (r.parsed_date.getD "1900-01-01").data

/-- Strict "comes later in the ascending order" comparison of two rows under
the query sort key `(dateKey, generated_at, id)`. -/
def keyLt (a b : Row) : Prop :=
  strLtB (dateKey a) (dateKey b) = true ∨
    (dateKey a = dateKey b ∧
      (a.generated_at < b.generated_at ∨
        (a.generated_at = b.generated_at ∧ a.rowId < b.rowId)))

/-- `a` sorts no later than `b` in the descending (`DESC, DESC, DESC`) order
of the queries. -/
def rowGe (a b : Row) : Prop := ¬ keyLt a b

instance : DecidableRel keyLt := fun a b => by
  unfold keyLt; infer_instance

instance : DecidableRel rowGe := fun a b => by
  unfold rowGe; infer_instance

/-- Equality of the full sort key. -/
def keyEq (a b : Row) : Prop :=
  dateKey a = dateKey b ∧ a.generated_at = b.generated_at ∧ a.rowId = b.rowId

/-- The result set of the three read queries for one source: the rows of the
source, sorted by the descending `(dateKey, generated_at, id)` key. -/
def sortedRows (db : DB) (src : String) : List Row :=
  List.insertionSort rowGe (db.rows.filter (fun r => r.source == src))

/-- `BotDatabase.get_latest_report` (lines 173-205): first row of the
descending order, if any. -/
def get_latest_report (db : DB) (src : String) : Option Report :=
  (sortedRows db src).head?.map rowToReport

/-- `BotDatabase.get_report_by_index` (lines 207-239): `LIMIT 1 OFFSET
index - 1` (SQLite treats the negative offset produced by `index = 0` as no
offset, matching truncated `Nat` subtraction). -/
def get_report_by_index (db : DB) (src : String) (index : Nat) : Option Report :=
  ((sortedRows db src).drop (index - 1)).head?.map rowToReport

/-- `BotDatabase.get_all_reports` (lines 241-274): same order, `LIMIT limit`
(default 50 at the call sites). -/
def get_all_reports (db : DB) (src : String) (limit : Nat) : List Report :=
  ((sortedRows db src).take limit).map rowToReport

/-- `BotDatabase.count_reports` (lines 297-306): `SELECT COUNT(*) ... WHERE
source = ?`. -/
def count_reports (db : DB) (src : String) : Nat :=
  (db.rows.filter (fun r => r.source == src)).length

/-- The `SELECT id FROM ai_reports WHERE source = ? AND patch_id = ?` +
`fetchone()` step inside `is_report_new`. -/
def fetchReportRow (db : DB) (src pid : String) : Option Row :=
  db.rows.find? (keyMatches src pid)

/-- The body of `BotDatabase.is_report_new` (lines 308-322) as a function of
the outcome of the underlying store query: `fetchone() is None` on success,
and `True` (treat as new) when the query raised. -/
def is_report_newFrom : Except String (Option Row) → Bool
  | Except.ok r => r.isNone
  | Except.error _ => true

/-- `BotDatabase.is_report_new` on a healthy store. -/
def is_report_new (db : DB) (src pid : String) : Bool :=
  is_report_newFrom (Except.ok (fetchReportRow db src pid))

/-! ## The ingestion cycle (src/main.py, `ai_analysis_loop`, lines 84-125)

The loop processes, per source, the harvested patches in order: for each patch
whose `(source, id)` is new it calls the analyzer (`generate_deep_report`) and,
when the analyzer returns a report filename, stores the report.  The analyzer
is an opaque deterministic oracle `PatchData → Option String` (`None` models a
failed or empty analysis).  The observable analyzer calls and store writes are
recorded as events. -/

/-- Observable side effects of one analysis cycle. -/
inductive Event where
  | analyzed (src pid : String)
  | stored (src pid : String)
deriving DecidableEq

/-- The per-source `for patch in patches:` loop body of `ai_analysis_loop`:
dedup gate via `is_report_new`, then analyzer call, then conditional store. -/
def runCycle (src : String) (analyze : PatchData → Option String) (now : Nat) :
    DB → List PatchData → DB × List Event
  | db, [] => (db, [])
  | db, p :: ps =>
    if is_report_new db src p.id then
      match analyze p with
      | some fn =>
        let r := runCycle src analyze now (store_ai_report db p fn src now) ps
        (r.1, Event.analyzed src p.id :: Event.stored src p.id :: r.2)
      | none =>
        let r := runCycle src analyze now db ps
        (r.1, Event.analyzed src p.id :: r.2)
    else runCycle src analyze now db ps

/-- One full invocation of `ai_analysis_loop`: the Global Labs harvest is
processed first, then the Korean Notice harvest, sharing the database. -/
def aiAnalysisCycle (db : DB) (analyze : PatchData → Option String) (now : Nat)
    (gl kr : List PatchData) : DB × List Event :=
  let r1 := runCycle "Global Labs" analyze now db gl
  let r2 := runCycle "Korean Notice" analyze now r1.1 kr
  (r2.1, r1.2 ++ r2.2)

/-- Number of occurrences of one event in a cycle's event list. -/
def countEv (evs : List Event) (e : Event) : Nat :=
  (evs.filter (fun x => x == e)).length

/-! ## Concrete scenario databases -/

/-- Scenario B of the specification: the same `(source, patchId)` upserted
twice with different titles. -/
def scenarioB : DB :=
  store_ai_report
    (store_ai_report DB.empty
      ⟨"Korean Notice_123", "first title", "2025-08-06", "l1"⟩ "r1.md"
      "Korean Notice" 100)
    ⟨"Korean Notice_123", "second title", "2025-08-06", "l2"⟩ "r2.md"
    "Korean Notice" 200

/-- Scenario A of the specification: three reports for one source with raw
dates `"2025.08.06"`, `"Aug 5, 2025"` and `"unparseable-garbage"`, inserted in
that order at increasing timestamps. -/
def scenarioA : DB :=
  store_ai_report
    (store_ai_report
      (store_ai_report DB.empty
        ⟨"P1", "t1", "2025.08.06", "l1"⟩ "r1.md" "S" 10)
      ⟨"P2", "t2", "Aug 5, 2025", "l2"⟩ "r2.md" "S" 11)
    ⟨"P3", "t3", "unparseable-garbage", "l3"⟩ "r3.md" "S" 12

/-- A database holding a report dated before the `'1900-01-01'` sentinel
(rawDate `"1850-01-01"`, stored first) and an undated report (stored second,
with the later `generated_at`). -/
def dbPre1900 : DB :=
  store_ai_report
    (store_ai_report DB.empty
      ⟨"OLD", "old report", "1850-01-01", "l1"⟩ "r1.md" "S" 0)
    ⟨"NODATE", "undated report", "no date here", "l2"⟩ "r2.md" "S" 1

/-- A database holding one dated (after the sentinel) and one undated
report; the undated one has the later `generated_at`. -/
def dbNullCase : DB :=
  store_ai_report
    (store_ai_report DB.empty
      ⟨"DATED", "dated report", "2025-08-06", "l1"⟩ "r1.md" "S" 5)
    ⟨"NODATE", "undated report", "no date here", "l2"⟩ "r2.md" "S" 9

/-! ## Specification-side date-format generators

These definitions follow the specification's words, not the source: they
describe what "an input in the format `YYYY-MM-DD`, `YYYY.MM.DD`,
`YYYY/MM/DD`, `MM/DD/YYYY`, `\"Mon D, YYYY\"`" is, so that the format claims
can be stated for every date in range. -/

/-- Four decimal digits of a year (`YYYY`, spec-side). -/
def num4 (y : Nat) : List Char :=
  [digitChar (y / 1000), digitChar (y / 100 % 10), digitChar (y / 10 % 10),
   digitChar (y % 10)]

/-- Two zero-padded decimal digits (`MM`/`DD`, spec-side). -/
def num2 (n : Nat) : List Char := [digitChar (n / 10), digitChar (n % 10)]

/-- Capitalised English month abbreviation (`Mon`, spec-side). -/
def monthAbbr : Nat → List Char
  | 1 => "Jan".data
  | 2 => "Feb".data
  | 3 => "Mar".data
  | 4 => "Apr".data
  | 5 => "May".data
  | 6 => "Jun".data
  | 7 => "Jul".data
  | 8 => "Aug".data
  | 9 => "Sep".data
  | 10 => "Oct".data
  | 11 => "Nov".data
  | _ => "Dec".data

/-- An input in the format `YYYY<sep>MM<sep>DD` (spec-side). -/
def specFmtYMD (sep : Char) (y m d : Nat) : String :=
  String.mk (num4 y ++ sep :: (num2 m ++ sep :: num2 d))

/-- An input in the format `MM/DD/YYYY` (spec-side). -/
def specFmtUS (y m d : Nat) : String :=
  String.mk (num2 m ++ '/' :: (num2 d ++ '/' :: num4 y))

/-- An input in the format `"Mon D, YYYY"` (spec-side; the day unpadded as in
`"Aug 5, 2025"`). -/
def specFmtMon (y m d : Nat) : String :=
  String.mk (monthAbbr m ++ ' ' :: (natDigits d ++ ',' :: ' ' :: num4 y))

/-! ## Specification-side tolerant-scan algorithms

`specTolerantScan` follows the words of the claim: extract all numeric
substrings; with at least 3 found, treat **the first value greater than
2000** as the year and the remaining two numbers as month and day, swapping
them if the presumed month exceeds 12, and return the resulting date.
`specAmendedScan` follows the amended claim: **each** value greater than 2000
is tried in order as the year; for each candidate, every numeric substring
textually equal to it is removed and the first two remaining values are
month and day (with the same swap); the first candidate that forms a valid
calendar date wins. -/

/-- The claim's tolerant scan, as worded (first value above 2000 is the
year; that occurrence is removed; the next two values are month/day). -/
def specTolerantScan (s : List Char) : Option (Nat × Nat × Nat) :=
  let nums := (digitRuns s).map toVal
  if nums.length ≥ 3 then
    match nums.find? (fun v => 2000 < v) with
    | some y =>
      (match nums.erase y with
       | m0 :: d0 :: _ =>
         if m0 > 12 then checkDate y d0 m0 else checkDate y m0 d0
       | _ => none)
    | none => none
  else none

/-- One year candidate of the amended scan. -/
def specYearAttempt (all : List (List Char)) (n : List Char) :
    Option (Nat × Nat × Nat) :=
  match (all.filter (fun x => x != n)).map toVal with
  | m0 :: d0 :: _ =>
    if m0 > 12 then checkDate (toVal n) d0 m0 else checkDate (toVal n) m0 d0
  | _ => none

/-- The amended scan's candidate loop. -/
def specTryYears (all : List (List Char)) :
    List (List Char) → Option (Nat × Nat × Nat)
  | [] => none
  | n :: rest =>
    if toVal n > 2000 then
      orE (specYearAttempt all n) (specTryYears all rest)
    else specTryYears all rest

/-- The amended claim's tolerant scan. -/
def specAmendedScan (s : List Char) : Option (Nat × Nat × Nat) :=
  let runs := digitRuns s
  if runs.length ≥ 3 then specTryYears runs runs else none

end BotDB

/-! ## The stable-identity assigner (src/link_extractor.py, lines 180-199)

`BDOLinkExtractor._generate_stable_id(url, source)`: priority 1 is the
`boardNo` query parameter (regex `[?&]_?boardNo=(\d+)`, case-insensitive),
priority 2 the `groupContentNo` parameter, priority 3 the first 12 hex
characters of the MD5 of the UTF-8 encoded URL, and only an internal
exception yields the timestamped `error` fallback.  The try-body is pure, so
it is modelled as a total `Except`-valued function; the wall clock is an
explicit parameter consumed only by the (dead) except branch. -/

namespace LinkExtractor

open BotDB

/-- UTF-8 encoding of one character (`str.encode()`). -/
def charUtf8 (c : Char) : List Nat :=
  let n := c.toNat
  if n < 128 then [n]
  else if n < 2048 then [192 + n / 64, 128 + n % 64]
  else if n < 65536 then [224 + n / 4096, 128 + n / 64 % 64, 128 + n % 64]
  else [240 + n / 262144, 128 + n / 4096 % 64, 128 + n / 64 % 64, 128 + n % 64]

/-- UTF-8 encoding of a string as a byte list. -/
def utf8Bytes (s : List Char) : List Nat := (s.map charUtf8).flatten

/-- Bitwise combination of two machine words of width `w`, digit by binary
digit (machine integers are modelled as `Nat` with explicit `% 2^32`). -/
def bitw (f : Nat → Nat → Nat) : Nat → Nat → Nat → Nat
  | 0, _, _ => 0
  | w + 1, x, y => f (x % 2) (y % 2) + 2 * bitw f w (x / 2) (y / 2)

/-- 32-bit AND. -/
def and32 (x y : Nat) : Nat := bitw (fun a b => a * b) 32 x y

/-- 32-bit OR. -/
def or32 (x y : Nat) : Nat := bitw (fun a b => a + b - a * b) 32 x y

/-- 32-bit XOR. -/
def xor32 (x y : Nat) : Nat := bitw (fun a b => (a + b) % 2) 32 x y

/-- 32-bit complement. -/
def not32 (x : Nat) : Nat := 4294967295 - x % 4294967296

/-- Addition modulo `2^32`. -/
def add32 (x y : Nat) : Nat := (x + y) % 4294967296

/-- 32-bit left rotation by `s` places. -/
def rotl32 (s x : Nat) : Nat := x % 2 ^ (32 - s) * 2 ^ s + x / 2 ^ (32 - s)

/-- The MD5 sine-derived constant table (RFC 1321). -/
def md5K : List Nat :=
  [3614090360, 3905402710, 606105819, 3250441966, 4118548399, 1200080426,
   2821735955, 4249261313, 1770035416, 2336552879, 4294925233, 2304563134,
   1804603682, 4254626195, 2792965006, 1236535329, 4129170786, 3225465664,
   643717713, 3921069994, 3593408605, 38016083, 3634488961, 3889429448,
   568446438, 3275163606, 4107603335, 1163531501, 2850285829, 4243563512,
   1735328473, 2368359562, 4294588738, 2272392833, 1839030562, 4259657740,
   2763975236, 1272893353, 4139469664, 3200236656, 681279174, 3936430074,
   3572445317, 76029189, 3654602809, 3873151461, 530742520, 3299628645,
   4096336452, 1126891415, 2878612391, 4237533241, 1700485571, 2399980690,
   4293915773, 2240044497, 1873313359, 4264355552, 2734768916, 1309151649,
   4149444226, 3174756917, 718787259, 3951481745]

/-- The MD5 per-round shift table. -/
def md5S : List Nat :=
  [7, 12, 17, 22, 7, 12, 17, 22, 7, 12, 17, 22, 7, 12, 17, 22,
   5, 9, 14, 20, 5, 9, 14, 20, 5, 9, 14, 20, 5, 9, 14, 20,
   4, 11, 16, 23, 4, 11, 16, 23, 4, 11, 16, 23, 4, 11, 16, 23,
   6, 10, 15, 21, 6, 10, 15, 21, 6, 10, 15, 21, 6, 10, 15, 21]

/-- Little-endian 8-byte rendering of the 64-bit message bit length. -/
def le8 (n : Nat) : List Nat :=
  [n % 256, n / 256 % 256, n / 65536 % 256, n / 16777216 % 256,
   n / 4294967296 % 256, n / 1099511627776 % 256,
   n / 281474976710656 % 256, n / 72057594037927936 % 256]

/-- MD5 padding: `0x80`, zeros to 56 mod 64, then the bit length. -/
def md5pad (msg : List Nat) : List Nat :=
  msg ++ 128 :: List.replicate ((120 - (msg.length + 1) % 64) % 64) 0 ++
    le8 (8 * msg.length % 2 ^ 64)

/-- Little-endian 32-bit word from four bytes. -/
def word_le (b0 b1 b2 b3 : Nat) : Nat :=
  b0 + 256 * b1 + 65536 * b2 + 16777216 * b3

/-- Message word `M[g]` of a 64-byte block. -/
def md5M (block : List Nat) (g : Nat) : Nat :=
  word_le (block.getD (4 * g) 0) (block.getD (4 * g + 1) 0)
    (block.getD (4 * g + 2) 0) (block.getD (4 * g + 3) 0)

/-- The four MD5 round functions F, G, H, I selected by the step index. -/
def md5F (i b c d : Nat) : Nat :=
  if i < 16 then or32 (and32 b c) (and32 (not32 b) d)
  else if i < 32 then or32 (and32 d b) (and32 (not32 d) c)
  else if i < 48 then xor32 b (xor32 c d)
  else xor32 c (or32 b (not32 d))

/-- The MD5 message-index schedule. -/
def md5g (i : Nat) : Nat :=
  if i < 16 then i
  else if i < 32 then (5 * i + 1) % 16
  else if i < 48 then (3 * i + 5) % 16
  else 7 * i % 16

/-- One MD5 step. -/
def md5Step (block : List Nat) (i : Nat) (st : Nat × Nat × Nat × Nat) :
    Nat × Nat × Nat × Nat :=
  let f := add32 (add32 (add32 st.1 (md5F i st.2.1 st.2.2.1 st.2.2.2))
    (md5K.getD i 0)) (md5M block (md5g i))
  (st.2.2.2, add32 st.2.1 (rotl32 (md5S.getD i 0) f), st.2.1, st.2.2.1)

/-- The 64 steps of one block (fuel `n` runs steps `64 - n` to `63`). -/
def md5Steps (block : List Nat) : Nat → (Nat × Nat × Nat × Nat) →
    Nat × Nat × Nat × Nat
  | 0, st => st
  | n + 1, st => md5Steps block n (md5Step block (64 - (n + 1)) st)

/-- Process one 64-byte block. -/
def md5Block (st : Nat × Nat × Nat × Nat) (block : List Nat) :
    Nat × Nat × Nat × Nat :=
  let r := md5Steps block 64 st
  (add32 st.1 r.1, add32 st.2.1 r.2.1, add32 st.2.2.1 r.2.2.1,
   add32 st.2.2.2 r.2.2.2)

/-- Process `n` consecutive blocks. -/
def md5Loop : Nat → (Nat × Nat × Nat × Nat) → List Nat →
    Nat × Nat × Nat × Nat
  | 0, st, _ => st
  | n + 1, st, msg => md5Loop n (md5Block st (msg.take 64)) (msg.drop 64)

/-- Little-endian byte rendering of one 32-bit word. -/
def le4 (n : Nat) : List Nat :=
  [n % 256, n / 256 % 256, n / 65536 % 256, n / 16777216 % 256]

/-- Lowercase hexadecimal digit. -/
def hexDigit (n : Nat) : Char :=
  if n < 10 then Char.ofNat (48 + n) else Char.ofNat (87 + n)

/-- Two lowercase hex characters of one byte. -/
def byteHex (b : Nat) : List Char := [hexDigit (b / 16), hexDigit (b % 16)]

/-- `hashlib.md5(msg).hexdigest()` as a character list. -/
def md5hexChars (msg : List Nat) : List Char :=
  let padded := md5pad msg
  let r := md5Loop (padded.length / 64)
    (1732584193, 4023233417, 2562383102, 271733878) padded
  ((le4 r.1 ++ le4 r.2.1 ++ le4 r.2.2.1 ++ le4 r.2.2.2).map byteHex).flatten

/-- `\d+` at the current position: at least one digit, maximal munch. -/
def takeDigits1 : List Char → Option (List Char)
  | c :: rest =>
    if c.isDigit then some (c :: rest.takeWhile Char.isDigit) else none
  | [] => none

/-- Case-insensitive literal match (the pattern is given lowercase). -/
def matchLiteralCI : List Char → List Char → Option (List Char)
  | [], s => some s
  | _ :: _, [] => none
  | l :: ls, c :: cs =>
    if myToLower c = l then matchLiteralCI ls cs else none

/-- `[?&]_?boardNo=(\d+)` (case-insensitive) matched at one position.  (If
the optional `'_'` is present it must be consumed: the alternative would
require `'b'` to match `'_'`.) -/
def matchBoardAt (s : List Char) : Option (List Char) :=
  match s with
  | c :: rest =>
    if c = '?' ∨ c = '&' then
      match (match rest with
             | '_' :: r => matchLiteralCI "boardno=".data r
             | _ => matchLiteralCI "boardno=".data rest) with
      | some r3 => takeDigits1 r3
      | none => none
    else none
  | [] => none

/-- `[?&]groupContentNo=(\d+)` (case-insensitive, no optional underscore)
matched at one position. -/
def matchGroupAt (s : List Char) : Option (List Char) :=
  match s with
  | c :: rest =>
    if c = '?' ∨ c = '&' then
      match matchLiteralCI "groupcontentno=".data rest with
      | some r3 => takeDigits1 r3
      | none => none
    else none
  | [] => none

/-- The try-body of `_generate_stable_id`: total, hence `Except.ok`. -/
def generate_stable_idBody (url source : String) : Except Unit String :=
  Except.ok
    (match searchList matchBoardAt url.data with
     | some ds => source ++ "_" ++ String.mk ds
     | none =>
       match searchList matchGroupAt url.data with
       | some ds => source ++ "_" ++ String.mk ds
       | none =>
         source ++ "_url_" ++ String.mk ((md5hexChars (utf8Bytes url.data)).take 12))

/-- `BDOLinkExtractor._generate_stable_id(url, source)`: the try-body, with
the `f"{source}_error_{int(time.time())}"` except branch taking the wall
clock `now`. -/
def generate_stable_id (url source : String) (now : Nat) : String :=
  match generate_stable_idBody url source with
  | Except.ok r => r
  | Except.error _ => source ++ "_error_" ++ toString now

end LinkExtractor

namespace BotDB

/-! ## Proofs -/

example : parse_date "2025-08-06" = some "2025-08-06" := by decide
example : parse_date "2025.08.06" = some "2025-08-06" := by decide
example : parse_date "Aug 5, 2025" = some "2025-08-05" := by decide
example : parse_date "2025/08/06" = some "2025-08-06" := by decide
example : parse_date "08/06/2025" = some "2025-08-06" := by decide
example : parse_date "unparseable-garbage" = none := by decide
example : parse_date "" = none := by decide
example : parse_date "1850-01-01" = some "1850-01-01" := by decide
example : parse_date "  2025-8-6  " = some "2025-08-06" := by decide
example : parse_date "Posted 2025.08.06 news" = some "2025-08-06" := by decide
example : parse_date "2 29 2025 2024" = some "2024-02-29" := by decide
example : parse_date "13/01/2025" = some "2025-01-13" := by decide

theorem strLtB_irrefl : ∀ s, strLtB s s = false
  | [] => rfl
  | a :: as => by
    simp only [strLtB, lt_irrefl, if_false]
    exact strLtB_irrefl as

theorem strLtB_asymm : ∀ {s t}, strLtB s t = true → strLtB t s = false
  | [], [], h => by simp [strLtB] at h
  | [], _ :: _, _ => rfl
  | _ :: _, [], h => by simp [strLtB] at h
  | a :: as, b :: bs, h => by
    simp only [strLtB] at h ⊢
    by_cases hab : a < b
    · simp [hab, lt_asymm hab]
    · by_cases hba : b < a
      · simp [hab, hba] at h
      · have : a = b := le_antisymm (le_of_not_lt hba) (le_of_not_lt hab)
        subst this
        simp only [lt_irrefl, if_false] at h ⊢
        exact strLtB_asymm h

theorem strLtB_trans : ∀ {s t u}, strLtB s t = true → strLtB t u = true →
    strLtB s u = true
  | [], [], _, h, _ => by simp [strLtB] at h
  | [], _ :: _, [], _, h => by simp [strLtB] at h
  | [], _ :: _, _ :: _, _, _ => rfl
  | _ :: _, [], _, h, _ => by simp [strLtB] at h
  | _ :: _, _ :: _, [], _, h => by simp [strLtB] at h
  | a :: as, b :: bs, c :: cs, h1, h2 => by
    simp only [strLtB] at h1 h2 ⊢
    by_cases hab : a < b
    · by_cases hbc : b < c
      · simp [lt_trans hab hbc]
      · by_cases hcb : c < b
        · simp [hbc, hcb] at h2
        · have : b = c := le_antisymm (le_of_not_lt hcb) (le_of_not_lt hbc)
          subst this
          simp [hab]
    · by_cases hba : b < a
      · simp [hab, hba] at h1
      · have : a = b := le_antisymm (le_of_not_lt hba) (le_of_not_lt hab)
        subst this
        simp only [lt_irrefl, if_false] at h1
        by_cases hbc : a < c
        · simp [hbc]
        · by_cases hcb : c < a
          · simp [hbc, hcb] at h2
          · have : a = c := le_antisymm (le_of_not_lt hcb) (le_of_not_lt hbc)
            subst this
            simp only [lt_irrefl, if_false] at h2 ⊢
            exact strLtB_trans h1 h2

theorem strLtB_conn : ∀ {s t}, strLtB s t = false → strLtB t s = false → s = t
  | [], [], _, _ => rfl
  | [], _ :: _, h, _ => by simp [strLtB] at h
  | _ :: _, [], _, h => by simp [strLtB] at h
  | a :: as, b :: bs, h1, h2 => by
    simp only [strLtB] at h1 h2
    by_cases hab : a < b
    · simp [hab] at h1
    · by_cases hba : b < a
      · simp [hba] at h2
      · have hc : a = b := le_antisymm (le_of_not_lt hba) (le_of_not_lt hab)
        subst hc
        simp only [lt_irrefl, if_false] at h1 h2
        rw [strLtB_conn h1 h2]

theorem keyLt_asymm {a b : Row} (h1 : keyLt a b) (h2 : keyLt b a) : False := by
  rcases h1 with h1 | ⟨e1, r1⟩
  · rcases h2 with h2 | ⟨e2, _⟩
    · exact absurd (strLtB_asymm h1) (by simp [h2])
    · rw [e2] at h1
      exact absurd h1 (by simp [strLtB_irrefl])
  · rcases h2 with h2 | ⟨_, r2⟩
    · rw [e1] at h2
      exact absurd h2 (by simp [strLtB_irrefl])
    · omega

theorem keyLt_trans {a b c : Row} (h1 : keyLt a b) (h2 : keyLt b c) :
    keyLt a c := by
  rcases h1 with h1 | ⟨e1, r1⟩
  · rcases h2 with h2 | ⟨e2, _⟩
    · exact Or.inl (strLtB_trans h1 h2)
    · exact Or.inl (e2 ▸ h1)
  · rcases h2 with h2 | ⟨e2, r2⟩
    · exact Or.inl (e1 ▸ h2)
    · exact Or.inr ⟨e1.trans e2, by omega⟩

theorem keyLt_trichotomy (a b : Row) : keyLt a b ∨ keyEq a b ∨ keyLt b a := by
  by_cases hab : strLtB (dateKey a) (dateKey b) = true
  · exact Or.inl (Or.inl hab)
  · by_cases hba : strLtB (dateKey b) (dateKey a) = true
    · exact Or.inr (Or.inr (Or.inl hba))
    · have he : dateKey a = dateKey b :=
        strLtB_conn (by simpa using hab) (by simpa using hba)
      rcases Nat.lt_trichotomy a.generated_at b.generated_at with hg | hg | hg
      · exact Or.inl (Or.inr ⟨he, Or.inl hg⟩)
      · rcases Nat.lt_trichotomy a.rowId b.rowId with hi | hi | hi
        · exact Or.inl (Or.inr ⟨he, Or.inr ⟨hg, hi⟩⟩)
        · exact Or.inr (Or.inl ⟨he, hg, hi⟩)
        · exact Or.inr (Or.inr (Or.inr ⟨he.symm, Or.inr ⟨hg.symm, hi⟩⟩))
      · exact Or.inr (Or.inr (Or.inr ⟨he.symm, Or.inl hg⟩))

theorem keyEq_lt_congr {a b c : Row} (h : keyEq a b) : keyLt a c ↔ keyLt b c := by
  unfold keyLt
  rw [h.1, h.2.1, h.2.2]

instance : IsTotal Row rowGe :=
  ⟨fun a b => by
    by_cases h : keyLt a b
    · exact Or.inr fun h2 => keyLt_asymm h h2
    · exact Or.inl h⟩

instance : IsTrans Row rowGe :=
  ⟨fun a b c hab hbc hac => by
    rcases keyLt_trichotomy a b with h | h | h
    · exact hab h
    · exact hbc ((keyEq_lt_congr h).mp hac)
    · exact hbc (keyLt_trans h hac)⟩

theorem sortedRows_sorted (db : DB) (src : String) :
    List.Sorted rowGe (sortedRows db src) :=
  List.sorted_insertionSort rowGe _

theorem length_sortedRows (db : DB) (src : String) :
    (sortedRows db src).length = count_reports db src :=
  List.length_insertionSort rowGe _

theorem filter_not_filter (p : α → Bool) (l : List α) :
    (l.filter (fun a => !(p a))).filter p = [] := by
  induction l with
  | nil => rfl
  | cons a l ih =>
    by_cases h : p a <;> simp [List.filter_cons, h, ih]

theorem filter_not_idem (p : α → Bool) (l : List α) :
    (l.filter (fun a => !(p a))).filter (fun a => !(p a)) =
      l.filter (fun a => !(p a)) := by
  induction l with
  | nil => rfl
  | cons a l ih =>
    by_cases h : p a <;> simp [List.filter_cons, h, ih]

/-! ## Claims about the report store -/

/-- **C8** (offset consistency): for every database state and source,
`get_report_by_index(source, 1)` returns the same report as
`get_latest_report(source)`, and `get_report_by_index(source,
count_reports(source) + 1)` returns `None`. -/
theorem claim8_offset_consistency (db : DB) (src : String) :
    get_report_by_index db src 1 = get_latest_report db src ∧
      get_report_by_index db src (count_reports db src + 1) = none := by
  constructor
  · rfl
  · unfold get_report_by_index
    rw [Nat.add_sub_cancel,
      List.drop_eq_nil_of_le (le_of_eq (length_sortedRows db src))]
    rfl

/-- **C3** (upsert key uniqueness and replacement): after upserting twice with
the same `(source, patch_id)`, the table holds exactly one row for that key
and its title is the second call's title; the second upsert does not grow the
per-source count; and in the concrete Scenario B the count is 1 and
`get_latest_report` carries the second title. -/
theorem claim3_upsert_key_replacement (db : DB) (p1 p2 : PatchData)
    (f1 f2 src : String) (t1 t2 : Nat) (hid : p1.id = p2.id) :
    ((store_ai_report (store_ai_report db p1 f1 src t1) p2 f2 src t2).rows.filter
        (keyMatches src p2.id)).map Row.title = [p2.title] ∧
      count_reports (store_ai_report (store_ai_report db p1 f1 src t1) p2 f2 src t2) src =
        count_reports (store_ai_report db p1 f1 src t1) src ∧
      count_reports scenarioB "Korean Notice" = 1 ∧
      (get_latest_report scenarioB "Korean Notice").map Report.title =
        some "second title" := by
  refine ⟨?_, ?_, by decide, by decide⟩
  · simp only [store_ai_report, List.filter_append,
      filter_not_filter (keyMatches src p2.id)]
    simp [keyMatches]
  · simp only [store_ai_report, count_reports, List.filter_append, hid,
      filter_not_idem (keyMatches src p2.id)]
    simp [keyMatches]

theorem claim3_upsert_key_replacement_witness :
    ((store_ai_report (store_ai_report DB.empty
        ⟨"K", "one", "2025-08-06", "l1"⟩ "r1.md" "S" 1)
        ⟨"K", "two", "2025-08-06", "l2"⟩ "r2.md" "S" 2).rows.filter
        (keyMatches "S" "K")).map Row.title = ["two"] :=
  (claim3_upsert_key_replacement DB.empty
    ⟨"K", "one", "2025-08-06", "l1"⟩ ⟨"K", "two", "2025-08-06", "l2"⟩
    "r1.md" "r2.md" "S" 1 2 rfl).1

/-- **C2, counterexample**: in `dbPre1900` the undated report (null
`parsed_date`, later `generated_at`) outranks the report dated
`"1850-01-01"` in both the `get_latest_report` and the `get_all_reports`
ordering, because a null date is replaced by the sentinel `'1900-01-01'`,
which compares *above* genuinely stored dates before 1900 — so the claim
"a null-dated report never outranks a non-null-dated one, regardless of
`generatedAt`" is false as stated. -/
theorem claim2_null_date_counterexample :
    (get_latest_report dbPre1900 "S").map Report.parsed_date = some none ∧
      (get_all_reports dbPre1900 "S" 50).map Report.parsed_date =
        [none, some "1850-01-01"] := by decide

/-- **C2, amended** (null-date ordering safety above the sentinel): in the
ordering used by `get_latest_report`/`get_report_by_index`/`get_all_reports`,
a report with null `parsed_date` never outranks a report of the same source
whose `parsed_date` is lexicographically greater than the sentinel
`'1900-01-01'`, regardless of the two reports' `generated_at` values: the
non-null report always appears strictly earlier in the result order. -/
theorem claim2_null_date_ordering_amended (db : DB) (src : String)
    (i j : Nat) (ri rj : Row) (hi : (sortedRows db src)[i]? = some ri)
    (hj : (sortedRows db src)[j]? = some rj)
    (hni : ri.parsed_date = none) (d : String) (hdj : rj.parsed_date = some d)
    (hgt : strLtB "1900-01-01".data d.data = true) : j < i := by
  rcases List.getElem?_eq_some_iff.mp hi with ⟨hilen, hie⟩
  rcases List.getElem?_eq_some_iff.mp hj with ⟨hjlen, hje⟩
  by_contra hcon
  have hij : i ≤ j := Nat.le_of_not_lt hcon
  rcases Nat.eq_or_lt_of_le hij with heq | hlt
  · subst heq
    rw [hie] at hje
    subst hje
    rw [hni] at hdj
    exact Option.noConfusion hdj
  · have hpw := (List.pairwise_iff_getElem.mp (sortedRows_sorted db src))
      i j hilen hjlen hlt
    rw [hie, hje] at hpw
    apply hpw
    exact Or.inl (by simpa [dateKey, hni, hdj] using hgt)

/-- **C10** (fail-open existence check): if the store query inside
`is_report_new` fails with any error, the function returns `True` — the item
is treated as new, so a store read failure can only cause a duplicate
re-analysis, never a permanently skipped notice. -/
theorem claim10_fail_open_exists (e : String) :
    is_report_newFrom (Except.error e) = true := rfl

/-- A valid `datetime` triple within Python's `MINYEAR`/`MAXYEAR`. -/
def validTriple (t : Nat × Nat × Nat) : Prop :=
  1 ≤ t.1 ∧ t.1 ≤ 9999 ∧ 1 ≤ t.2.1 ∧ t.2.1 ≤ 12 ∧ 1 ≤ t.2.2 ∧
    t.2.2 ≤ daysInMonth t.1 t.2.1

theorem checkDate_valid {y m d : Nat} {t : Nat × Nat × Nat}
    (h : checkDate y m d = some t) : t = (y, m, d) ∧ validTriple t := by
  unfold checkDate at h
  split at h
  · rename_i hc
    cases h
    exact ⟨rfl, hc.1, hc.2.1, hc.2.2.1, hc.2.2.2.1, hc.2.2.2.2⟩
  · exact Option.noConfusion h

theorem orE_some {a b : Option α} {t : α} (h : orE a b = some t) :
    a = some t ∨ b = some t := by
  unfold orE at h
  cases ha : a with
  | some x => rw [ha] at h; exact Or.inl h
  | none => rw [ha] at h; exact Or.inr h

theorem tryFmtYMD_valid {sep : Char} {s : List Char} {t : Nat × Nat × Nat}
    (h : tryFmtYMD sep s = some t) : validTriple t := by
  unfold tryFmtYMD at h
  rcases hm : matchYMD sep s with _ | ⟨y, m, d⟩ <;> rw [hm] at h
  · exact Option.noConfusion h
  · exact (checkDate_valid h).2

theorem tryFmtMonDY_valid {s : List Char} {t : Nat × Nat × Nat}
    (h : tryFmtMonDY s = some t) : validTriple t := by
  unfold tryFmtMonDY at h
  rcases hm : matchMonDY s with _ | ⟨y, m, d⟩ <;> rw [hm] at h
  · exact Option.noConfusion h
  · exact (checkDate_valid h).2

theorem tryFmtMDY_valid {s : List Char} {t : Nat × Nat × Nat}
    (h : tryFmtMDY s = some t) : validTriple t := by
  unfold tryFmtMDY at h
  rcases hm : matchMDY s with _ | ⟨y, m, d⟩ <;> rw [hm] at h
  · exact Option.noConfusion h
  · exact (checkDate_valid h).2

theorem tryPat1_valid {s : List Char} {t : Nat × Nat × Nat}
    (h : tryPat1 s = some t) : validTriple t := by
  unfold tryPat1 at h
  rcases hm : searchList matchP1At s with _ | ⟨y, m, d⟩ <;> rw [hm] at h
  · exact Option.noConfusion h
  · exact (checkDate_valid h).2

theorem tryPat2_valid {s : List Char} {t : Nat × Nat × Nat}
    (h : tryPat2 s = some t) : validTriple t := by
  unfold tryPat2 at h
  rcases hm : searchList matchP2At s with _ | ⟨m, d, y⟩ <;> rw [hm] at h
  · exact Option.noConfusion h
  · exact (checkDate_valid h).2

theorem tryPat3_valid {s : List Char} {t : Nat × Nat × Nat}
    (h : tryPat3 s = some t) : validTriple t := by
  unfold tryPat3 at h
  rcases hm : searchList matchP3At s with _ | ⟨mo, d, y⟩ <;> rw [hm] at h
  · exact Option.noConfusion h
  · exact (checkDate_valid h).2

theorem fbAttempt_valid {all : List (List Char)} {n : List Char}
    {t : Nat × Nat × Nat} (h : fbAttempt all n = some t) : validTriple t := by
  unfold fbAttempt at h
  rcases hm : (all.filter (fun x => x != n)).map toVal with _ | ⟨m0, rest⟩ <;>
    rw [hm] at h
  · exact Option.noConfusion h
  · rcases rest with _ | ⟨d0, rest2⟩
    · exact Option.noConfusion h
    · exact (checkDate_valid h).2

theorem fbLoop_valid {all : List (List Char)} :
    ∀ {l : List (List Char)} {t : Nat × Nat × Nat},
      fbLoop all l = some t → validTriple t := by
  intro l
  induction l with
  | nil => intro t h; exact Option.noConfusion h
  | cons n rest ih =>
    intro t h
    unfold fbLoop at h
    split at h
    · rcases ha : fbAttempt all n with _ | t2 <;> rw [ha] at h
      · exact ih h
      · cases h; exact fbAttempt_valid ha
    · exact ih h

theorem fallbackScan_valid {s : List Char} {t : Nat × Nat × Nat}
    (h : fallbackScan s = some t) : validTriple t := by
  unfold fallbackScan at h
  simp only [] at h
  split at h
  · exact fbLoop_valid h
  · exact Option.noConfusion h

theorem dateTriple_valid {s : List Char} {t : Nat × Nat × Nat}
    (h : dateTriple s = some t) : validTriple t := by
  unfold dateTriple at h
  rcases orE_some h with h | h
  · exact tryFmtYMD_valid h
  rcases orE_some h with h | h
  · exact tryFmtYMD_valid h
  rcases orE_some h with h | h
  · exact tryFmtMonDY_valid h
  rcases orE_some h with h | h
  · exact tryFmtYMD_valid h
  rcases orE_some h with h | h
  · exact tryFmtMDY_valid h
  rcases orE_some h with h | h
  · exact tryPat1_valid h
  rcases orE_some h with h | h
  · exact tryPat2_valid h
  rcases orE_some h with h | h
  · exact tryPat3_valid h
  · exact fallbackScan_valid h

/-- **C9** (totality and shape of the date normalizer): for every input
string, `parse_date` returns either `None` or the canonical rendering
`isoOf y m d` of a valid calendar date (year 1–9999, month 1–12, day within
the month).  Termination, absence of exceptions and determinism are inherent
in the embedding: `parse_date` is a total pure Lean function translated
branch-for-branch from the source. -/
theorem claim9_normalizer_total_shape (s : String) :
    parse_date s = none ∨
      ∃ y m d, parse_date s = some (isoOf y m d) ∧
        1 ≤ y ∧ y ≤ 9999 ∧ 1 ≤ m ∧ m ≤ 12 ∧ 1 ≤ d ∧ d ≤ daysInMonth y m := by
  unfold parse_date
  split
  · exact Or.inl rfl
  · rcases hm : dateTriple (stripChars s.data) with _ | ⟨y, m, d⟩
    · exact Or.inl rfl
    · have hv := dateTriple_valid hm
      exact Or.inr ⟨y, m, d, rfl, hv.1, hv.2.1, hv.2.2.1, hv.2.2.2.1,
        hv.2.2.2.2.1, hv.2.2.2.2.2⟩

/-! ### Dedup lemmas for the ingestion cycle -/

theorem is_report_new_true_iff (db : DB) (src pid : String) :
    is_report_new db src pid = true ↔
      ∀ r ∈ db.rows, keyMatches src pid r = false := by
  unfold is_report_new is_report_newFrom fetchReportRow
  rw [Option.isNone_iff_eq_none, List.find?_eq_none]
  constructor
  · intro h r hr
    simpa using h r hr
  · intro h r hr
    simp [h r hr]

theorem is_report_new_false_iff (db : DB) (src pid : String) :
    is_report_new db src pid = false ↔
      ∃ r ∈ db.rows, keyMatches src pid r = true := by
  constructor
  · intro h
    by_contra hc
    push_neg at hc
    have : is_report_new db src pid = true :=
      (is_report_new_true_iff db src pid).mpr fun r hr => by
        simpa using hc r hr
    rw [h] at this
    exact Bool.noConfusion this
  · rintro ⟨r, hr, hk⟩
    cases hb : is_report_new db src pid with
    | false => rfl
    | true =>
      have := (is_report_new_true_iff db src pid).mp hb r hr
      rw [hk] at this
      exact Bool.noConfusion this

theorem keyMatches_true_iff (src pid : String) (r : Row) :
    keyMatches src pid r = true ↔ r.source = src ∧ r.patch_id = pid := by
  simp [keyMatches]

/-- After `store_ai_report`, the stored `(source, id)` key exists. -/
theorem store_key_present (db : DB) (p : PatchData) (fn src : String) (now : Nat) :
    is_report_new (store_ai_report db p fn src now) src p.id = false := by
  rw [is_report_new_false_iff]
  refine ⟨{ rowId := db.nextId, source := src, patch_id := p.id,
            title := p.title, date := p.date, parsed_date := parse_date p.date,
            link := p.link, report_filename := fn, generated_at := now,
            is_notified := false, patch_data := p }, ?_, ?_⟩
  · simp [store_ai_report]
  · simp [keyMatches]

/-- `store_ai_report` never removes a key: a key present before stays
present. -/
theorem store_key_preserved {db : DB} {s k : String} (p : PatchData)
    (fn src : String) (now : Nat) (h : is_report_new db s k = false) :
    is_report_new (store_ai_report db p fn src now) s k = false := by
  by_cases hsk : s = src ∧ k = p.id
  · rcases hsk with ⟨rfl, rfl⟩
    exact store_key_present db p fn s now
  · rw [is_report_new_false_iff] at h ⊢
    obtain ⟨r, hr, hk⟩ := h
    refine ⟨r, ?_, hk⟩
    have hkm : keyMatches src p.id r = false := by
      cases hc : keyMatches src p.id r with
      | false => rfl
      | true =>
        obtain ⟨e1, e2⟩ := (keyMatches_true_iff src p.id r).mp hc
        obtain ⟨f1, f2⟩ := (keyMatches_true_iff s k r).mp hk
        exact absurd ⟨f1 ▸ e1, f2 ▸ e2⟩ hsk
    simp only [store_ai_report]
    exact List.mem_append.mpr (Or.inl (List.mem_filter.mpr ⟨hr, by simp [hkm]⟩))

/-- `store_ai_report` for a different key does not create this key. -/
theorem store_key_absent {db : DB} {s k : String} (p : PatchData)
    (fn src : String) (now : Nat) (h : is_report_new db s k = true)
    (hne : ¬(s = src ∧ k = p.id)) :
    is_report_new (store_ai_report db p fn src now) s k = true := by
  rw [is_report_new_true_iff] at h ⊢
  intro r hr
  simp only [store_ai_report] at hr
  rcases List.mem_append.mp hr with hr | hr
  · exact h r (List.mem_of_mem_filter hr)
  · simp only [List.mem_singleton] at hr
    subst hr
    cases hc : keyMatches s k _ with
    | false => rfl
    | true =>
      obtain ⟨e1, e2⟩ := (keyMatches_true_iff s k _).mp hc
      exact absurd ⟨e1.symm, e2.symm⟩ hne

/-- `runCycle` never removes a key. -/
theorem runCycle_key_preserved (src' : String)
    (analyze : PatchData → Option String) (now : Nat) {s k : String} :
    ∀ (ps : List PatchData) (db : DB), is_report_new db s k = false →
      is_report_new (runCycle src' analyze now db ps).1 s k = false
  | [], _, h => h
  | p :: ps, db, h => by
    unfold runCycle
    by_cases hn : is_report_new db src' p.id = true
    · rw [if_pos hn]
      rcases ha : analyze p with _ | fn <;> simp only []
      · exact runCycle_key_preserved src' analyze now ps db h
      · exact runCycle_key_preserved src' analyze now ps _
          (store_key_preserved p fn src' now h)
    · rw [if_neg hn]
      exact runCycle_key_preserved src' analyze now ps db h

/-- A cycle over one source never creates a key of a *different* source: a
key absent before the sub-cycle is still absent afterwards. -/
theorem runCycle_key_absent_other (src' : String)
    (analyze : PatchData → Option String) (now : Nat) {s k : String}
    (hne : s ≠ src') :
    ∀ (ps : List PatchData) (db : DB), is_report_new db s k = true →
      is_report_new (runCycle src' analyze now db ps).1 s k = true
  | [], _, h => h
  | p :: ps, db, h => by
    unfold runCycle
    by_cases hn : is_report_new db src' p.id = true
    · rw [if_pos hn]
      rcases ha : analyze p with _ | fn <;> simp only []
      · exact runCycle_key_absent_other src' analyze now hne ps db h
      · exact runCycle_key_absent_other src' analyze now hne ps _
          (store_key_absent p fn src' now h fun hc => hne hc.1)
    · rw [if_neg hn]
      exact runCycle_key_absent_other src' analyze now hne ps db h

theorem countEv_nil (e : Event) : countEv [] e = 0 := rfl

theorem countEv_cons (x : Event) (evs : List Event) (e : Event) :
    countEv (x :: evs) e = countEv evs e + (if x = e then 1 else 0) := by
  by_cases h : x = e <;> simp [countEv, List.filter_cons, h]

theorem countEv_append (a b : List Event) (e : Event) :
    countEv (a ++ b) e = countEv a e + countEv b e := by
  simp [countEv, List.filter_append]

/-- A cycle performs no analyzer call and no store write for an item whose
key already exists, and the key still exists afterwards. -/
theorem runCycle_counts_seen {s : String} (analyze : PatchData → Option String)
    (now : Nat) {k : String} :
    ∀ (ps : List PatchData) (db : DB), is_report_new db s k = false →
      countEv (runCycle s analyze now db ps).2 (Event.analyzed s k) = 0 ∧
        countEv (runCycle s analyze now db ps).2 (Event.stored s k) = 0 ∧
        is_report_new (runCycle s analyze now db ps).1 s k = false := by
  intro ps
  induction ps with
  | nil => exact fun db h => ⟨rfl, rfl, h⟩
  | cons p ps ih =>
    intro db h
    unfold runCycle
    by_cases hn : is_report_new db s p.id = true
    · have hpk : ¬(p.id = k) := by
        intro he
        rw [he, h] at hn
        exact Bool.noConfusion hn
      rw [if_pos hn]
      rcases ha : analyze p with _ | fn <;> simp only []
      · obtain ⟨c1, c2, c3⟩ := ih db h
        refine ⟨?_, ?_, c3⟩ <;>
          simp [countEv_cons, c1, c2, Event.analyzed.injEq, hpk]
      · obtain ⟨c1, c2, c3⟩ := ih (store_ai_report db p fn s now)
          (store_key_preserved p fn s now h)
        refine ⟨?_, ?_, c3⟩ <;>
          simp [countEv_cons, c1, c2, Event.analyzed.injEq,
            Event.stored.injEq, hpk]
    · rw [if_neg hn]
      exact ih db h

/-- A cycle performs exactly one analyzer call and one store write for a new
item whose analysis succeeds, and afterwards the key exists. -/
theorem runCycle_counts_new {s : String} (analyze : PatchData → Option String)
    (now : Nat) {k : String} :
    ∀ (ps : List PatchData) (db : DB), is_report_new db s k = true →
      (∀ p ∈ ps, p.id = k → analyze p ≠ none) →
      k ∈ ps.map PatchData.id →
      countEv (runCycle s analyze now db ps).2 (Event.analyzed s k) = 1 ∧
        countEv (runCycle s analyze now db ps).2 (Event.stored s k) = 1 ∧
        is_report_new (runCycle s analyze now db ps).1 s k = false := by
  intro ps
  induction ps with
  | nil => exact fun db _ _ hmem => absurd hmem (by simp)
  | cons p ps ih =>
    intro db hnew hana hmem
    have hana' : ∀ q ∈ ps, q.id = k → analyze q ≠ none :=
      fun q hq => hana q (List.mem_cons_of_mem p hq)
    unfold runCycle
    by_cases hpk : p.id = k
    · have hn : is_report_new db s p.id = true := by rw [hpk]; exact hnew
      rw [if_pos hn]
      rcases ha : analyze p with _ | fn
      · exact absurd ha (hana p (List.mem_cons_self p ps) hpk)
      · simp only []
        have hpres : is_report_new (store_ai_report db p fn s now) s k = false := by
          rw [← hpk]
          exact store_key_present db p fn s now
        obtain ⟨c1, c2, c3⟩ :=
          runCycle_counts_seen analyze now ps (store_ai_report db p fn s now) hpres
        refine ⟨?_, ?_, c3⟩ <;>
          simp [countEv_cons, c1, c2, Event.analyzed.injEq,
            Event.stored.injEq, hpk]
    · have hmem' : k ∈ ps.map PatchData.id := by
        simp only [List.map_cons, List.mem_cons] at hmem
        rcases hmem with he | hm
        · exact absurd he.symm hpk
        · exact hm
      by_cases hn : is_report_new db s p.id = true
      · rw [if_pos hn]
        rcases ha : analyze p with _ | fn <;> simp only []
        · obtain ⟨c1, c2, c3⟩ := ih db hnew hana' hmem'
          refine ⟨?_, ?_, c3⟩ <;>
            simp [countEv_cons, c1, c2, Event.analyzed.injEq, hpk]
        · have habs : is_report_new (store_ai_report db p fn s now) s k = true :=
            store_key_absent p fn s now hnew fun hc => hpk hc.2.symm
          obtain ⟨c1, c2, c3⟩ := ih (store_ai_report db p fn s now) habs hana' hmem'
          refine ⟨?_, ?_, c3⟩ <;>
            simp [countEv_cons, c1, c2, Event.analyzed.injEq,
              Event.stored.injEq, hpk]
      · rw [if_neg hn]
        exact ih db hnew hana' hmem'

/-- A cycle over one source produces no events attributed to another
source. -/
theorem runCycle_counts_other {src' src k : String} (hne : src ≠ src')
    (analyze : PatchData → Option String) (now : Nat) :
    ∀ (ps : List PatchData) (db : DB),
      countEv (runCycle src' analyze now db ps).2 (Event.analyzed src k) = 0 ∧
        countEv (runCycle src' analyze now db ps).2 (Event.stored src k) = 0 := by
  intro ps
  induction ps with
  | nil => exact fun _ => ⟨rfl, rfl⟩
  | cons p ps ih =>
    intro db
    unfold runCycle
    by_cases hn : is_report_new db src' p.id = true
    · rw [if_pos hn]
      rcases ha : analyze p with _ | fn <;> simp only []
      · obtain ⟨c1, c2⟩ := ih db
        refine ⟨?_, ?_⟩ <;>
          simp [countEv_cons, c1, c2, Event.analyzed.injEq, hne.symm]
      · obtain ⟨c1, c2⟩ := ih (store_ai_report db p fn src' now)
        refine ⟨?_, ?_⟩ <;>
          simp [countEv_cons, c1, c2, Event.analyzed.injEq,
            Event.stored.injEq, hne.symm]
    · rw [if_neg hn]
      exact ih db

/-- **C1** (dedup idempotence of the ingestion cycle): for every item of
either monitored source's harvest — Global Labs or Korean Notice — that is
not yet stored and whose analysis succeeds, running `ai_analysis_loop` twice
with identical harvest results performs exactly one analyzer call and one
store write for that item on the first run, and — because the durable
`is_report_new` check now fails — zero analyzer calls and zero store writes
on the second run. -/
theorem claim1_dedup_idempotence (db : DB)
    (analyze : PatchData → Option String) (t1 t2 : Nat)
    (gl kr : List PatchData) (src pid : String)
    (hnew : is_report_new db src pid = true)
    (hsrc : (src = "Global Labs" ∧ pid ∈ gl.map PatchData.id ∧
        ∀ p ∈ gl, p.id = pid → analyze p ≠ none) ∨
      (src = "Korean Notice" ∧ pid ∈ kr.map PatchData.id ∧
        ∀ p ∈ kr, p.id = pid → analyze p ≠ none)) :
    countEv (aiAnalysisCycle db analyze t1 gl kr).2
        (Event.analyzed src pid) = 1 ∧
      countEv (aiAnalysisCycle db analyze t1 gl kr).2
        (Event.stored src pid) = 1 ∧
      countEv (aiAnalysisCycle (aiAnalysisCycle db analyze t1 gl kr).1
          analyze t2 gl kr).2 (Event.analyzed src pid) = 0 ∧
      countEv (aiAnalysisCycle (aiAnalysisCycle db analyze t1 gl kr).1
          analyze t2 gl kr).2 (Event.stored src pid) = 0 := by
  rcases hsrc with ⟨rfl, hmem, hana⟩ | ⟨rfl, hmem, hana⟩
  · -- the item comes from the Global Labs harvest
    have hsrc2 : "Global Labs" ≠ "Korean Notice" := by decide
    obtain ⟨a1, a2, a3⟩ := runCycle_counts_new analyze t1 gl db hnew hana hmem
    obtain ⟨b1, b2⟩ := @runCycle_counts_other "Korean Notice" "Global Labs" pid
      hsrc2 analyze t1 kr (runCycle "Global Labs" analyze t1 db gl).1
    have hkeep1 : is_report_new (aiAnalysisCycle db analyze t1 gl kr).1
        "Global Labs" pid = false :=
      runCycle_key_preserved "Korean Notice" analyze t1 kr _ a3
    obtain ⟨c1, c2, c3⟩ := runCycle_counts_seen analyze t2 gl
      (aiAnalysisCycle db analyze t1 gl kr).1 hkeep1
    obtain ⟨d1, d2⟩ := @runCycle_counts_other "Korean Notice" "Global Labs" pid
      hsrc2 analyze t2 kr
      (runCycle "Global Labs" analyze t2 (aiAnalysisCycle db analyze t1 gl kr).1 gl).1
    simp only [aiAnalysisCycle] at c1 c2 d1 d2
    refine ⟨?_, ?_, ?_, ?_⟩ <;>
      simp [aiAnalysisCycle, countEv_append, a1, a2, b1, b2, c1, c2, d1, d2]
  · -- the item comes from the Korean Notice harvest, processed second
    have hsrc2 : "Korean Notice" ≠ "Global Labs" := by decide
    obtain ⟨a1, a2⟩ := @runCycle_counts_other "Global Labs" "Korean Notice" pid
      hsrc2 analyze t1 gl db
    have habs1 : is_report_new (runCycle "Global Labs" analyze t1 db gl).1
        "Korean Notice" pid = true :=
      runCycle_key_absent_other "Global Labs" analyze t1 hsrc2 gl db hnew
    obtain ⟨b1, b2, b3⟩ := runCycle_counts_new analyze t1 kr
      (runCycle "Global Labs" analyze t1 db gl).1 habs1 hana hmem
    obtain ⟨c1, c2⟩ := @runCycle_counts_other "Global Labs" "Korean Notice" pid
      hsrc2 analyze t2 gl (aiAnalysisCycle db analyze t1 gl kr).1
    have hkeep2 : is_report_new
        (runCycle "Global Labs" analyze t2 (aiAnalysisCycle db analyze t1 gl kr).1 gl).1
        "Korean Notice" pid = false := by
      apply runCycle_key_preserved "Global Labs" analyze t2 gl
      simp only [aiAnalysisCycle]
      exact b3
    obtain ⟨d1, d2, d3⟩ := runCycle_counts_seen analyze t2 kr
      (runCycle "Global Labs" analyze t2 (aiAnalysisCycle db analyze t1 gl kr).1 gl).1
      hkeep2
    simp only [aiAnalysisCycle] at c1 c2 d1 d2
    refine ⟨?_, ?_, ?_, ?_⟩ <;>
      simp [aiAnalysisCycle, countEv_append, a1, a2, b1, b2, c1, c2, d1, d2]

theorem claim1_dedup_idempotence_witness :
    (countEv (aiAnalysisCycle DB.empty (fun _ => some "r.md") 1
        [⟨"G1", "patch one", "2025-08-06", "l1"⟩]
        [⟨"K1", "patch two", "2025-08-07", "l2"⟩]).2
      (Event.analyzed "Global Labs" "G1") = 1 ∧
      countEv (aiAnalysisCycle DB.empty (fun _ => some "r.md") 1
          [⟨"G1", "patch one", "2025-08-06", "l1"⟩]
          [⟨"K1", "patch two", "2025-08-07", "l2"⟩]).2
        (Event.stored "Global Labs" "G1") = 1 ∧
      countEv (aiAnalysisCycle (aiAnalysisCycle DB.empty (fun _ => some "r.md") 1
          [⟨"G1", "patch one", "2025-08-06", "l1"⟩]
          [⟨"K1", "patch two", "2025-08-07", "l2"⟩]).1 (fun _ => some "r.md") 2
          [⟨"G1", "patch one", "2025-08-06", "l1"⟩]
          [⟨"K1", "patch two", "2025-08-07", "l2"⟩]).2
        (Event.analyzed "Global Labs" "G1") = 0 ∧
      countEv (aiAnalysisCycle (aiAnalysisCycle DB.empty (fun _ => some "r.md") 1
          [⟨"G1", "patch one", "2025-08-06", "l1"⟩]
          [⟨"K1", "patch two", "2025-08-07", "l2"⟩]).1 (fun _ => some "r.md") 2
          [⟨"G1", "patch one", "2025-08-06", "l1"⟩]
          [⟨"K1", "patch two", "2025-08-07", "l2"⟩]).2
        (Event.stored "Global Labs" "G1") = 0) ∧
      (countEv (aiAnalysisCycle DB.empty (fun _ => some "r.md") 1
          [⟨"G1", "patch one", "2025-08-06", "l1"⟩]
          [⟨"K1", "patch two", "2025-08-07", "l2"⟩]).2
        (Event.analyzed "Korean Notice" "K1") = 1 ∧
      countEv (aiAnalysisCycle DB.empty (fun _ => some "r.md") 1
          [⟨"G1", "patch one", "2025-08-06", "l1"⟩]
          [⟨"K1", "patch two", "2025-08-07", "l2"⟩]).2
        (Event.stored "Korean Notice" "K1") = 1 ∧
      countEv (aiAnalysisCycle (aiAnalysisCycle DB.empty (fun _ => some "r.md") 1
          [⟨"G1", "patch one", "2025-08-06", "l1"⟩]
          [⟨"K1", "patch two", "2025-08-07", "l2"⟩]).1 (fun _ => some "r.md") 2
          [⟨"G1", "patch one", "2025-08-06", "l1"⟩]
          [⟨"K1", "patch two", "2025-08-07", "l2"⟩]).2
        (Event.analyzed "Korean Notice" "K1") = 0 ∧
      countEv (aiAnalysisCycle (aiAnalysisCycle DB.empty (fun _ => some "r.md") 1
          [⟨"G1", "patch one", "2025-08-06", "l1"⟩]
          [⟨"K1", "patch two", "2025-08-07", "l2"⟩]).1 (fun _ => some "r.md") 2
          [⟨"G1", "patch one", "2025-08-06", "l1"⟩]
          [⟨"K1", "patch two", "2025-08-07", "l2"⟩]).2
        (Event.stored "Korean Notice" "K1") = 0) :=
  ⟨claim1_dedup_idempotence DB.empty (fun _ => some "r.md") 1 2
    [⟨"G1", "patch one", "2025-08-06", "l1"⟩]
    [⟨"K1", "patch two", "2025-08-07", "l2"⟩] "Global Labs" "G1" rfl
    (Or.inl ⟨rfl, by decide, fun p _ _ => by simp⟩),
   claim1_dedup_idempotence DB.empty (fun _ => some "r.md") 1 2
    [⟨"G1", "patch one", "2025-08-06", "l1"⟩]
    [⟨"K1", "patch two", "2025-08-07", "l2"⟩] "Korean Notice" "K1" rfl
    (Or.inr ⟨rfl, by decide, fun p _ _ => by simp⟩)⟩

theorem claim2_null_date_ordering_amended_witness : (0 : Nat) < 1 :=
  claim2_null_date_ordering_amended dbNullCase "S" 1 0
    { rowId := 2, source := "S", patch_id := "NODATE", title := "undated report",
      date := "no date here", parsed_date := none, link := "l2",
      report_filename := "r2.md", generated_at := 9, is_notified := false,
      patch_data := ⟨"NODATE", "undated report", "no date here", "l2"⟩ }
    { rowId := 1, source := "S", patch_id := "DATED", title := "dated report",
      date := "2025-08-06", parsed_date := some "2025-08-06", link := "l1",
      report_filename := "r1.md", generated_at := 5, is_notified := false,
      patch_data := ⟨"DATED", "dated report", "2025-08-06", "l1"⟩ }
    (by decide) (by decide) rfl "2025-08-06" rfl (by decide)

/-! ### Symbolic evaluation lemmas for the date formats -/

theorem digitChar_isDigit {n : Nat} (h : n < 10) :
    (digitChar n).isDigit = true := by
  interval_cases n <;> decide

theorem digVal_digitChar {n : Nat} (h : n < 10) :
    digVal (digitChar n) = n := by
  interval_cases n <;> decide

theorem digitChar_not_ws {n : Nat} (h : n < 10) :
    (digitChar n).isWhitespace = false := by
  interval_cases n <;> decide

theorem myToLower_digitChar {n : Nat} (h : n < 10) :
    myToLower (digitChar n) = digitChar n := by
  interval_cases n <;> decide

theorem orE_none_left (b : Option α) : orE none b = b := rfl

theorem orE_some_left (x : α) (b : Option α) : orE (some x) b = some x := rfl

theorem parse4_num4 {y : Nat} (h : y ≤ 9999) (rest : List Char) :
    parseNDigits 4 0 (num4 y ++ rest) = some (y, rest) := by
  have h1 : y / 1000 < 10 := by omega
  have h2 : y / 100 % 10 < 10 := by omega
  have h3 : y / 10 % 10 < 10 := by omega
  have h4 : y % 10 < 10 := by omega
  simp only [num4, List.cons_append, List.nil_append, parseNDigits,
    digitChar_isDigit h1, digitChar_isDigit h2, digitChar_isDigit h3,
    digitChar_isDigit h4, if_true, digVal_digitChar h1, digVal_digitChar h2,
    digVal_digitChar h3, digVal_digitChar h4]
  simp only [Option.some.injEq, Prod.mk.injEq]
  refine ⟨?_, rfl⟩
  have hdd1 : y / 100 / 10 = y / 1000 := by rw [Nat.div_div_eq_div_mul]
  have hdd2 : y / 10 / 10 = y / 100 := by rw [Nat.div_div_eq_div_mul]
  omega

theorem parse4_fail_head {c : Char} (h : c.isDigit = false) (acc : Nat)
    (rest : List Char) : parseNDigits 4 acc (c :: rest) = none := by
  simp [parseNDigits, h]

theorem parse4_fail_third {a b : Nat} (ha : a < 10) (hb : b < 10) {c : Char}
    (h : c.isDigit = false) (acc : Nat) (rest : List Char) :
    parseNDigits 4 acc (digitChar a :: digitChar b :: c :: rest) = none := by
  simp [parseNDigits, digitChar_isDigit ha, digitChar_isDigit hb, h]

theorem expectCh_eq (c : Char) (rest : List Char) :
    expectCh c (c :: rest) = some rest := by
  simp [expectCh]

theorem expectCh_ne {c x : Char} (h : x ≠ c) (rest : List Char) :
    expectCh c (x :: rest) = none := by
  simp [expectCh, h]

theorem tok2_num2 {lo hi n : Nat} (hlo : lo ≤ n) (hhi : n ≤ hi)
    (h99 : n ≤ 99) (rest : List Char) :
    tok2 lo hi (num2 n ++ rest) = some (n, rest) := by
  have h1 : n / 10 < 10 := by omega
  have h2 : n % 10 < 10 := by omega
  simp only [num2, List.cons_append, List.nil_append, tok2,
    digitChar_isDigit h1, digitChar_isDigit h2, if_true,
    digVal_digitChar h1, digVal_digitChar h2]
  split
  · simp only [Option.some.injEq, Prod.mk.injEq]
    refine ⟨?_, trivial⟩
    omega
  · rename_i hcon
    exfalso
    omega

theorem tok2_fail_second {a : Nat} (ha : a < 10) {c : Char}
    (h : c.isDigit = false) (lo hi : Nat) (rest : List Char) :
    tok2 lo hi (digitChar a :: c :: rest) = none := by
  simp [tok2, digitChar_isDigit ha, h]

theorem tok1_digit {lo hi n : Nat} (hn : n < 10) (hlo : lo ≤ n) (hhi : n ≤ hi)
    (rest : List Char) :
    tok1 lo hi (digitChar n :: rest) = some (n, rest) := by
  simp [tok1, digitChar_isDigit hn, digVal_digitChar hn, hlo, hhi]

theorem tok2_num2_nil {lo hi n : Nat} (hlo : lo ≤ n) (hhi : n ≤ hi)
    (h99 : n ≤ 99) : tok2 lo hi (num2 n) = some (n, []) := by
  have h := tok2_num2 hlo hhi h99 []
  rwa [List.append_nil] at h

theorem parse4_num4_nil {y : Nat} (h : y ≤ 9999) :
    parseNDigits 4 0 (num4 y) = some (y, []) := by
  have h2 := parse4_num4 h []
  rwa [List.append_nil] at h2

theorem tok2_fail_head {c : Char} (h : c.isDigit = false) (lo hi : Nat)
    (rest : List Char) : tok2 lo hi (c :: rest) = none := by
  cases rest <;> simp [tok2, h]

theorem tok1_fail_head {c : Char} (h : c.isDigit = false) (lo hi : Nat)
    (rest : List Char) : tok1 lo hi (c :: rest) = none := by
  simp [tok1, h]

theorem checkDate_pos {y m d : Nat} (h1 : 1 ≤ y) (h2 : y ≤ 9999) (h3 : 1 ≤ m)
    (h4 : m ≤ 12) (h5 : 1 ≤ d) (h6 : d ≤ daysInMonth y m) :
    checkDate y m d = some (y, m, d) := by
  unfold checkDate
  rw [if_pos ⟨h1, h2, h3, h4, h5, h6⟩]

theorem dropWhile_not_head {p : Char → Bool} {c : Char} (h : p c = false)
    (l : List Char) : List.dropWhile p (c :: l) = c :: l := by
  simp [List.dropWhile_cons, h]

theorem dropWhile_all_false {p : Char → Bool} {l : List Char}
    (h : ∀ c ∈ l, p c = false) : List.dropWhile p l = l := by
  cases l with
  | nil => rfl
  | cons c t => simp [List.dropWhile_cons, h c (List.mem_cons_self c t)]

theorem stripChars_no_ws {l : List Char}
    (h : ∀ c ∈ l, c.isWhitespace = false) : stripChars l = l := by
  unfold stripChars
  rw [dropWhile_all_false h,
    dropWhile_all_false (fun c hc => h c (List.mem_reverse.mp hc)),
    List.reverse_reverse]

theorem stripChars_sandwich {c e : Char} {mid : List Char}
    (hc : c.isWhitespace = false) (he : e.isWhitespace = false) :
    stripChars (c :: (mid ++ [e])) = c :: (mid ++ [e]) := by
  unfold stripChars
  rw [dropWhile_not_head hc]
  rw [show (c :: (mid ++ [e])).reverse = e :: (mid.reverse ++ [c]) by simp]
  rw [dropWhile_not_head he]
  simp

theorem monthLookup_digit {a : Nat} (ha : a < 10) (b c : Char) :
    monthLookup (digitChar a) b c = none := by
  interval_cases a <;> simp +decide [monthLookup]

theorem matchMonthName_digit {a : Nat} (ha : a < 10) (rest : List Char) :
    matchMonthName (digitChar a :: rest) = none := by
  rcases rest with _ | ⟨c2, rest2⟩
  · rfl
  rcases rest2 with _ | ⟨c3, rest3⟩
  · rfl
  simp [matchMonthName, myToLower_digitChar ha, monthLookup_digit ha]

theorem matchMonthName_abbr {m : Nat} (h1 : 1 ≤ m) (h2 : m ≤ 12)
    (rest : List Char) :
    matchMonthName (monthAbbr m ++ rest) = some (m, rest) := by
  interval_cases m <;>
    simp +decide [monthAbbr, matchMonthName, monthLookup, myToLower]

theorem monthAbbr_head {m : Nat} (h1 : 1 ≤ m) (h2 : m ≤ 12) :
    ∃ c t, monthAbbr m = c :: t ∧ c.isDigit = false ∧
      c.isWhitespace = false ∧
      (∀ x ∈ t, x.isWhitespace = false) := by
  interval_cases m <;> exact ⟨_, _, rfl, by decide, by decide, by decide⟩

/-- `strptime('%Y<sep>%m<sep>%d')` accepts the generated zero-padded input. -/
theorem matchYMD_spec {y m d : Nat} (sep : Char) (hy : y ≤ 9999) (hm1 : 1 ≤ m)
    (hm2 : m ≤ 12) (hd1 : 1 ≤ d) (hd2 : d ≤ 31) :
    matchYMD sep (num4 y ++ sep :: (num2 m ++ sep :: num2 d)) =
      some (y, m, d) := by
  simp only [matchYMD, parse4_num4 hy, expectCh_eq, ymdMonth,
    tok2_num2 hm1 hm2 (show m ≤ 99 by omega), ymdAfterM, ymdDay,
    tok2_num2_nil hd1 hd2 (show d ≤ 99 by omega), ymdEnd, orE]

/-- `strptime('%m/%d/%Y')` accepts the generated `MM/DD/YYYY` input. -/
theorem matchMDY_spec {y m d : Nat} (hy : y ≤ 9999) (hm1 : 1 ≤ m)
    (hm2 : m ≤ 12) (hd1 : 1 ≤ d) (hd2 : d ≤ 31) :
    matchMDY (num2 m ++ '/' :: (num2 d ++ '/' :: num4 y)) = some (y, m, d) := by
  simp only [matchMDY, tok2_num2 hm1 hm2 (show m ≤ 99 by omega), mdyAfterM,
    expectCh_eq, mdyDay, tok2_num2 hd1 hd2 (show d ≤ 99 by omega), mdyAfterD,
    parse4_num4_nil hy, ymdEnd, orE]

/-- `strptime('%b %d, %Y')` accepts the generated `"Mon D, YYYY"` input. -/
theorem matchMonDY_spec {y m d : Nat} (hy : y ≤ 9999) (hm1 : 1 ≤ m)
    (hm2 : m ≤ 12) (hd1 : 1 ≤ d) (hd2 : d ≤ 31) :
    matchMonDY (monthAbbr m ++ ' ' :: (natDigits d ++ ',' :: ' ' :: num4 y)) =
      some (y, m, d) := by
  have hws : (' ' : Char).isWhitespace = true := by decide
  simp only [matchMonDY, matchMonthName_abbr hm1 hm2, skipWs1, hws, if_true]
  by_cases hd : d < 10
  · have hnat : natDigits d = [digitChar d] := by simp [natDigits, hd]
    rw [hnat]
    simp only [List.cons_append, List.nil_append]
    rw [dropWhile_not_head (digitChar_not_ws hd)]
    simp only [monDYDay,
      tok2_fail_second hd (show (',' : Char).isDigit = false by decide) 1 31,
      tok1_digit hd hd1 (show d ≤ 9 by omega), orE, monDYAfterD, expectCh_eq,
      skipWs1, hws, if_true]
    rw [dropWhile_all_false
      (fun c hc => by
        simp only [num4, List.mem_cons, List.not_mem_nil, or_false] at hc
        rcases hc with rfl | rfl | rfl | rfl <;>
          exact digitChar_not_ws (by omega))]
    simp only [parse4_num4_nil hy, ymdEnd]
  · have hnat : natDigits d = num2 d := by
      simp [natDigits, num2, hd, show d < 100 by omega]
    rw [hnat]
    have hh : (num2 d ++ ',' :: ' ' :: num4 y).head? = some (digitChar (d / 10)) := by
      simp [num2]
    simp only [num2, List.cons_append, List.nil_append]
    rw [dropWhile_not_head (digitChar_not_ws (show d / 10 < 10 by omega))]
    have hrw : (digitChar (d / 10) :: digitChar (d % 10) :: (',' :: ' ' :: num4 y) : List Char) =
        num2 d ++ (',' :: ' ' :: num4 y) := by simp [num2]
    rw [hrw]
    simp only [monDYDay, tok2_num2 hd1 hd2 (show d ≤ 99 by omega), orE,
      monDYAfterD, expectCh_eq, skipWs1, hws, if_true]
    rw [dropWhile_all_false
      (fun c hc => by
        simp only [num4, List.mem_cons, List.not_mem_nil, or_false] at hc
        rcases hc with rfl | rfl | rfl | rfl <;>
          exact digitChar_not_ws (by omega))]
    simp only [parse4_num4_nil hy, ymdEnd]

/-- The `%Y<sep>%m<sep>%d` formats reject an input whose separator differs. -/
theorem tryFmtYMD_sep_fail {y : Nat} (hy : y ≤ 9999) {sep x : Char}
    (hx : x ≠ sep) (rest : List Char) :
    tryFmtYMD sep (num4 y ++ x :: rest) = none := by
  simp only [tryFmtYMD, matchYMD, parse4_num4 hy, expectCh_ne hx]

/-- The `%Y…` formats reject an input whose third character is not a digit
(e.g. `MM/DD/YYYY` inputs). -/
theorem tryFmtYMD_us_fail {n : Nat} (hn : n ≤ 99) {c : Char}
    (hc : c.isDigit = false) (sep : Char) (rest : List Char) :
    tryFmtYMD sep (num2 n ++ c :: rest) = none := by
  simp only [tryFmtYMD, matchYMD, num2, List.cons_append, List.nil_append,
    parse4_fail_third (show n / 10 < 10 by omega) (show n % 10 < 10 by omega) hc]

/-- The `%Y…` formats reject an input starting with a non-digit. -/
theorem tryFmtYMD_head_fail {c : Char} (hc : c.isDigit = false) (sep : Char)
    (rest : List Char) : tryFmtYMD sep (c :: rest) = none := by
  simp only [tryFmtYMD, matchYMD, parse4_fail_head hc]

/-- `'%b %d, %Y'` rejects an input starting with a digit. -/
theorem tryFmtMonDY_digit_fail {a : Nat} (ha : a < 10) (rest : List Char) :
    tryFmtMonDY (digitChar a :: rest) = none := by
  simp only [tryFmtMonDY, matchMonDY, matchMonthName_digit ha]

/-- `'%m/%d/%Y'` rejects an input starting with a non-digit. -/
theorem tryFmtMDY_head_fail {c : Char} (hc : c.isDigit = false)
    (rest : List Char) : tryFmtMDY (c :: rest) = none := by
  simp only [tryFmtMDY, matchMDY, tok2_fail_head hc, tok1_fail_head hc, orE]

theorem daysInMonth_le_31 (y m : Nat) : daysInMonth y m ≤ 31 := by
  unfold daysInMonth
  split
  · split <;> omega
  · split <;> omega

/-- `'%b %d, %Y'` rejects a four-digit-year-first input. -/
theorem tryFmtMonDY_num4_fail {y : Nat} (hy : y ≤ 9999) (rest : List Char) :
    tryFmtMonDY (num4 y ++ rest) = none := by
  have hsh : num4 y ++ rest = digitChar (y / 1000) ::
      (digitChar (y / 100 % 10) :: digitChar (y / 10 % 10) ::
        digitChar (y % 10) :: rest) := by
    simp [num4]
  rw [hsh]
  exact tryFmtMonDY_digit_fail (by omega) _

/-- `'%b %d, %Y'` rejects a two-digit-month-first input. -/
theorem tryFmtMonDY_num2_fail {n : Nat} (hn : n ≤ 99) (rest : List Char) :
    tryFmtMonDY (num2 n ++ rest) = none := by
  have hsh : num2 n ++ rest =
      digitChar (n / 10) :: (digitChar (n % 10) :: rest) := by
    simp [num2]
  rw [hsh]
  exact tryFmtMonDY_digit_fail (by omega) _

/-- The `%Y…` formats reject a month-name-first input. -/
theorem tryFmtYMD_mon_fail {m : Nat} (h1 : 1 ≤ m) (h2 : m ≤ 12) (sep : Char)
    (rest : List Char) : tryFmtYMD sep (monthAbbr m ++ rest) = none := by
  obtain ⟨c, t, he, hcd, _, _⟩ := monthAbbr_head h1 h2
  rw [he, List.cons_append]
  exact tryFmtYMD_head_fail hcd sep _

/-- The cascade on a generated `YYYY-MM-DD` input. -/
theorem dateTriple_dash {y m d : Nat} (hy1 : 1000 ≤ y) (hy2 : y ≤ 9999)
    (hm1 : 1 ≤ m) (hm2 : m ≤ 12) (hd1 : 1 ≤ d) (hd2 : d ≤ daysInMonth y m) :
    dateTriple (num4 y ++ '-' :: (num2 m ++ '-' :: num2 d)) = some (y, m, d) := by
  have hd31 : d ≤ 31 := le_trans hd2 (daysInMonth_le_31 y m)
  have h1 : tryFmtYMD '-' (num4 y ++ '-' :: (num2 m ++ '-' :: num2 d)) =
      some (y, m, d) := by
    simp only [tryFmtYMD, matchYMD_spec '-' hy2 hm1 hm2 hd1 hd31,
      checkDate_pos (by omega) hy2 hm1 hm2 hd1 hd2]
  unfold dateTriple
  rw [h1, orE_some_left]

/-- The cascade on a generated `YYYY.MM.DD` input. -/
theorem dateTriple_dot {y m d : Nat} (hy1 : 1000 ≤ y) (hy2 : y ≤ 9999)
    (hm1 : 1 ≤ m) (hm2 : m ≤ 12) (hd1 : 1 ≤ d) (hd2 : d ≤ daysInMonth y m) :
    dateTriple (num4 y ++ '.' :: (num2 m ++ '.' :: num2 d)) = some (y, m, d) := by
  have hd31 : d ≤ 31 := le_trans hd2 (daysInMonth_le_31 y m)
  have h2 : tryFmtYMD '.' (num4 y ++ '.' :: (num2 m ++ '.' :: num2 d)) =
      some (y, m, d) := by
    simp only [tryFmtYMD, matchYMD_spec '.' hy2 hm1 hm2 hd1 hd31,
      checkDate_pos (by omega) hy2 hm1 hm2 hd1 hd2]
  unfold dateTriple
  rw [tryFmtYMD_sep_fail hy2 (show ('.' : Char) ≠ '-' by decide),
    orE_none_left, h2, orE_some_left]

/-- The cascade on a generated `"Mon D, YYYY"` input. -/
theorem dateTriple_mon {y m d : Nat} (hy1 : 1000 ≤ y) (hy2 : y ≤ 9999)
    (hm1 : 1 ≤ m) (hm2 : m ≤ 12) (hd1 : 1 ≤ d) (hd2 : d ≤ daysInMonth y m) :
    dateTriple (monthAbbr m ++ ' ' :: (natDigits d ++ ',' :: ' ' :: num4 y)) =
      some (y, m, d) := by
  have hd31 : d ≤ 31 := le_trans hd2 (daysInMonth_le_31 y m)
  have h3 : tryFmtMonDY
      (monthAbbr m ++ ' ' :: (natDigits d ++ ',' :: ' ' :: num4 y)) =
      some (y, m, d) := by
    simp only [tryFmtMonDY, matchMonDY_spec hy2 hm1 hm2 hd1 hd31,
      checkDate_pos (by omega) hy2 hm1 hm2 hd1 hd2]
  unfold dateTriple
  rw [tryFmtYMD_mon_fail hm1 hm2 '-', orE_none_left,
    tryFmtYMD_mon_fail hm1 hm2 '.', orE_none_left, h3, orE_some_left]

/-- The cascade on a generated `YYYY/MM/DD` input. -/
theorem dateTriple_slash {y m d : Nat} (hy1 : 1000 ≤ y) (hy2 : y ≤ 9999)
    (hm1 : 1 ≤ m) (hm2 : m ≤ 12) (hd1 : 1 ≤ d) (hd2 : d ≤ daysInMonth y m) :
    dateTriple (num4 y ++ '/' :: (num2 m ++ '/' :: num2 d)) = some (y, m, d) := by
  have hd31 : d ≤ 31 := le_trans hd2 (daysInMonth_le_31 y m)
  have h4 : tryFmtYMD '/' (num4 y ++ '/' :: (num2 m ++ '/' :: num2 d)) =
      some (y, m, d) := by
    simp only [tryFmtYMD, matchYMD_spec '/' hy2 hm1 hm2 hd1 hd31,
      checkDate_pos (by omega) hy2 hm1 hm2 hd1 hd2]
  unfold dateTriple
  rw [tryFmtYMD_sep_fail hy2 (show ('/' : Char) ≠ '-' by decide),
    orE_none_left,
    tryFmtYMD_sep_fail hy2 (show ('/' : Char) ≠ '.' by decide),
    orE_none_left, tryFmtMonDY_num4_fail hy2, orE_none_left, h4,
    orE_some_left]

/-- The cascade on a generated `MM/DD/YYYY` input. -/
theorem dateTriple_us {y m d : Nat} (hy1 : 1000 ≤ y) (hy2 : y ≤ 9999)
    (hm1 : 1 ≤ m) (hm2 : m ≤ 12) (hd1 : 1 ≤ d) (hd2 : d ≤ daysInMonth y m) :
    dateTriple (num2 m ++ '/' :: (num2 d ++ '/' :: num4 y)) = some (y, m, d) := by
  have hd31 : d ≤ 31 := le_trans hd2 (daysInMonth_le_31 y m)
  have hm99 : m ≤ 99 := by omega
  have hslash : ('/' : Char).isDigit = false := by decide
  have h5 : tryFmtMDY (num2 m ++ '/' :: (num2 d ++ '/' :: num4 y)) =
      some (y, m, d) := by
    simp only [tryFmtMDY, matchMDY_spec hy2 hm1 hm2 hd1 hd31,
      checkDate_pos (by omega) hy2 hm1 hm2 hd1 hd2]
  unfold dateTriple
  rw [tryFmtYMD_us_fail hm99 hslash '-', orE_none_left,
    tryFmtYMD_us_fail hm99 hslash '.', orE_none_left,
    tryFmtMonDY_num2_fail hm99, orE_none_left,
    tryFmtYMD_us_fail hm99 hslash '/', orE_none_left, h5, orE_some_left]

/-- Evaluation of `parse_date` through a stable stripped list. -/
theorem parse_date_eval {l : List Char} {y m d : Nat} (hne : l ≠ [])
    (hstrip : stripChars l = l) (h : dateTriple l = some (y, m, d)) :
    parse_date (String.mk l) = some (isoOf y m d) := by
  have hdata : (String.mk l).data = l := rfl
  unfold parse_date
  rw [if_neg (fun hcon => hne (by simpa using congrArg String.data hcon))]
  rw [hdata, hstrip, h]

theorem fmtYMD_no_ws {y m d : Nat} {sep : Char}
    (hy : y ≤ 9999) (hm : m ≤ 99) (hd : d ≤ 99)
    (hsep : sep.isWhitespace = false) :
    ∀ c ∈ num4 y ++ sep :: (num2 m ++ sep :: num2 d),
      c.isWhitespace = false := by
  intro c hc
  simp only [num4, num2, List.mem_append, List.mem_cons, List.not_mem_nil,
    or_false] at hc
  rcases hc with (rfl | rfl | rfl | rfl) | rfl | (rfl | rfl) | rfl | (rfl | rfl) <;>
    first
      | exact hsep
      | exact digitChar_not_ws (by omega)

theorem fmtUS_no_ws {y m d : Nat} (hy : y ≤ 9999) (hm : m ≤ 99) (hd : d ≤ 99) :
    ∀ c ∈ num2 m ++ '/' :: (num2 d ++ '/' :: num4 y),
      c.isWhitespace = false := by
  intro c hc
  simp only [num4, num2, List.mem_append, List.mem_cons, List.not_mem_nil,
    or_false] at hc
  rcases hc with (rfl | rfl) | rfl | (rfl | rfl) | rfl | (rfl | rfl | rfl | rfl) <;>
    first
      | decide
      | exact digitChar_not_ws (by omega)

theorem stripChars_fmtMon {y m d : Nat} (h1 : 1 ≤ m)
    (h2 : m ≤ 12) :
    stripChars (monthAbbr m ++ ' ' :: (natDigits d ++ ',' :: ' ' :: num4 y)) =
      monthAbbr m ++ ' ' :: (natDigits d ++ ',' :: ' ' :: num4 y) := by
  obtain ⟨c, t, he, _, hcw, _⟩ := monthAbbr_head h1 h2
  rw [he, List.cons_append]
  have hshape : t ++ ' ' :: (natDigits d ++ ',' :: ' ' :: num4 y) =
      (t ++ ' ' :: (natDigits d ++ ',' :: ' ' ::
        [digitChar (y / 1000), digitChar (y / 100 % 10),
         digitChar (y / 10 % 10)])) ++ [digitChar (y % 10)] := by
    simp [num4]
  rw [hshape, stripChars_sandwich hcw (digitChar_not_ws (by omega)), ← hshape]

/-- **C4** (date normalization of the listed formats): for every valid
calendar date with a four-digit year, `_parse_date` maps the renderings in
the formats `YYYY-MM-DD`, `YYYY.MM.DD`, `YYYY/MM/DD`, `MM/DD/YYYY` and
`"Mon D, YYYY"` to the canonical ISO rendering; in particular
`"2025.08.06" ↦ "2025-08-06"`, `"Aug 5, 2025" ↦ "2025-08-05"` and
`"unparseable-garbage" ↦ None`; and three reports so dated for one source are
returned by `get_all_reports` in exactly that order. -/
theorem claim4_date_formats (y m d : Nat) (hy1 : 1000 ≤ y) (hy2 : y ≤ 9999)
    (hm1 : 1 ≤ m) (hm2 : m ≤ 12) (hd1 : 1 ≤ d) (hd2 : d ≤ daysInMonth y m) :
    parse_date (specFmtYMD '-' y m d) = some (isoOf y m d) ∧
      parse_date (specFmtYMD '.' y m d) = some (isoOf y m d) ∧
      parse_date (specFmtYMD '/' y m d) = some (isoOf y m d) ∧
      parse_date (specFmtUS y m d) = some (isoOf y m d) ∧
      parse_date (specFmtMon y m d) = some (isoOf y m d) ∧
      parse_date "2025.08.06" = some "2025-08-06" ∧
      parse_date "Aug 5, 2025" = some "2025-08-05" ∧
      parse_date "unparseable-garbage" = none ∧
      (get_all_reports scenarioA "S" 50).map Report.patch_id =
        ["P1", "P2", "P3"] ∧
      (get_all_reports scenarioA "S" 50).map Report.parsed_date =
        [some "2025-08-06", some "2025-08-05", none] := by
  have hm99 : m ≤ 99 := by omega
  have hd99 : d ≤ 99 := by
    have := daysInMonth_le_31 y m
    omega
  refine ⟨?_, ?_, ?_, ?_, ?_, by decide, by decide, by decide, by decide,
    by decide⟩
  · exact parse_date_eval (by simp [num4])
      (stripChars_no_ws (fmtYMD_no_ws hy2 hm99 hd99 (by decide)))
      (dateTriple_dash hy1 hy2 hm1 hm2 hd1 hd2)
  · exact parse_date_eval (by simp [num4])
      (stripChars_no_ws (fmtYMD_no_ws hy2 hm99 hd99 (by decide)))
      (dateTriple_dot hy1 hy2 hm1 hm2 hd1 hd2)
  · exact parse_date_eval (by simp [num4])
      (stripChars_no_ws (fmtYMD_no_ws hy2 hm99 hd99 (by decide)))
      (dateTriple_slash hy1 hy2 hm1 hm2 hd1 hd2)
  · exact parse_date_eval (by simp [num2])
      (stripChars_no_ws (fmtUS_no_ws hy2 hm99 hd99))
      (dateTriple_us hy1 hy2 hm1 hm2 hd1 hd2)
  · refine parse_date_eval ?_ (stripChars_fmtMon hm1 hm2)
      (dateTriple_mon hy1 hy2 hm1 hm2 hd1 hd2)
    obtain ⟨c, t, he, _, _, _⟩ := monthAbbr_head hm1 hm2
    simp [he]

theorem claim4_date_formats_witness :
    parse_date (specFmtYMD '-' 2025 8 6) = some (isoOf 2025 8 6) ∧
      parse_date (specFmtUS 2025 8 6) = some (isoOf 2025 8 6) ∧
      parse_date (specFmtMon 2025 8 6) = some (isoOf 2025 8 6) := by
  have h := claim4_date_formats 2025 8 6 (by decide) (by decide) (by decide)
    (by decide) (by decide) (by decide)
  exact ⟨h.1, h.2.2.2.1, h.2.2.2.2.1⟩

/-! ### The tolerant fallback scan (C5) -/

theorem specYearAttempt_eq (all : List (List Char)) (n : List Char) :
    specYearAttempt all n = fbAttempt all n := by
  unfold specYearAttempt fbAttempt
  rcases hm : (all.filter (fun x => x != n)).map toVal with _ | ⟨m0, rest⟩
  · rfl
  · rcases rest with _ | ⟨d0, rest2⟩
    · rfl
    · by_cases h : m0 > 12 <;> simp [h]

theorem specTryYears_eq (all : List (List Char)) :
    ∀ l, specTryYears all l = fbLoop all l
  | [] => rfl
  | n :: rest => by
    unfold specTryYears fbLoop
    by_cases h : toVal n > 2000
    · rw [if_pos h, if_pos h, specYearAttempt_eq]
      rcases hA : fbAttempt all n with _ | t
      · rw [orE_none_left]
        exact specTryYears_eq all rest
      · rw [orE_some_left]
    · rw [if_neg h, if_neg h, specTryYears_eq all rest]

theorem specAmendedScan_eq (l : List Char) :
    specAmendedScan l = fallbackScan l := by
  unfold specAmendedScan fallbackScan
  simp only [specTryYears_eq]

/-- **C5, counterexample**: the input `"2 29 2025 2024"` matches none of the
structured formats and none of the regex patterns; the claim's tolerant scan
(first value above 2000, namely 2025, as the year) produces no date, because
2025-02-29 does not exist — but the code continues with the *next* value
above 2000 and returns `"2024-02-29"`, whose year is not the first value
above 2000. -/
theorem claim5_tolerant_scan_counterexample :
    (tryFmtYMD '-' (stripChars ("2 29 2025 2024" : String).data) = none ∧
      tryFmtYMD '.' (stripChars ("2 29 2025 2024" : String).data) = none ∧
      tryFmtMonDY (stripChars ("2 29 2025 2024" : String).data) = none ∧
      tryFmtYMD '/' (stripChars ("2 29 2025 2024" : String).data) = none ∧
      tryFmtMDY (stripChars ("2 29 2025 2024" : String).data) = none ∧
      tryPat1 (stripChars ("2 29 2025 2024" : String).data) = none ∧
      tryPat2 (stripChars ("2 29 2025 2024" : String).data) = none ∧
      tryPat3 (stripChars ("2 29 2025 2024" : String).data) = none) ∧
      specTolerantScan (stripChars ("2 29 2025 2024" : String).data) = none ∧
      parse_date "2 29 2025 2024" = some "2024-02-29" ∧
      fallbackScan (stripChars ("2 29 2025 2024" : String).data) =
        some (2024, 2, 29) := by decide

/-- **C5, amended** (tolerant-scan fallback): for every input that matches
none of the structured formats and none of the regex patterns, `_parse_date`
returns exactly the result of the amended tolerant scan: each numeric value
above 2000 is tried in order as the year, all numeric substrings textually
equal to the candidate are removed, the first two remaining values are taken
as month and day (swapped when the presumed month exceeds 12), and the first
candidate forming a valid calendar date is rendered. -/
theorem claim5_tolerant_scan_amended (s : String) (hne : ¬(s = ""))
    (h1 : tryFmtYMD '-' (stripChars s.data) = none)
    (h2 : tryFmtYMD '.' (stripChars s.data) = none)
    (h3 : tryFmtMonDY (stripChars s.data) = none)
    (h4 : tryFmtYMD '/' (stripChars s.data) = none)
    (h5 : tryFmtMDY (stripChars s.data) = none)
    (h6 : tryPat1 (stripChars s.data) = none)
    (h7 : tryPat2 (stripChars s.data) = none)
    (h8 : tryPat3 (stripChars s.data) = none) :
    parse_date s = Option.map (fun t => isoOf t.1 t.2.1 t.2.2)
      (specAmendedScan (stripChars s.data)) ∧
      specAmendedScan (stripChars s.data) = fallbackScan (stripChars s.data) := by
  have hD : dateTriple (stripChars s.data) = fallbackScan (stripChars s.data) := by
    unfold dateTriple
    rw [h1, orE_none_left, h2, orE_none_left, h3, orE_none_left, h4,
      orE_none_left, h5, orE_none_left, h6, orE_none_left, h7, orE_none_left,
      h8, orE_none_left]
  refine ⟨?_, specAmendedScan_eq _⟩
  unfold parse_date
  rw [if_neg hne, hD, specAmendedScan_eq]
  rcases hfb : fallbackScan (stripChars s.data) with _ | ⟨yy, mm, dd⟩ <;> rfl

theorem claim5_tolerant_scan_amended_witness :
    parse_date "7 11 2525 23" = Option.map (fun t => isoOf t.1 t.2.1 t.2.2)
      (specAmendedScan (stripChars ("7 11 2525 23" : String).data)) :=
  (claim5_tolerant_scan_amended "7 11 2525 23" (by decide) (by decide)
    (by decide) (by decide) (by decide) (by decide) (by decide) (by decide)
    (by decide)).1

end BotDB

namespace LinkExtractor

theorem takeDigits1_spec {s ds : List Char} (h : takeDigits1 s = some ds) :
    ds ≠ [] ∧ ds.all Char.isDigit = true := by
  cases s with
  | nil => exact Option.noConfusion h
  | cons c rest =>
    simp only [takeDigits1] at h
    by_cases hc : c.isDigit
    · rw [if_pos hc] at h
      have hds := Option.some.inj h
      subst hds
      refine ⟨by simp, ?_⟩
      rw [List.all_eq_true]
      intro x hx
      rcases List.mem_cons.mp hx with rfl | hx
      · exact hc
      · exact List.mem_takeWhile_imp hx
    · rw [if_neg hc] at h
      exact Option.noConfusion h

theorem matchBoardAt_digits {s ds : List Char} (h : matchBoardAt s = some ds) :
    ds ≠ [] ∧ ds.all Char.isDigit = true := by
  cases s with
  | nil => exact Option.noConfusion h
  | cons c rest =>
    simp only [matchBoardAt] at h
    by_cases hc : c = '?' ∨ c = '&'
    · rw [if_pos hc] at h
      rcases hlit : (match rest with
        | '_' :: r => matchLiteralCI "boardno=".data r
        | _ => matchLiteralCI "boardno=".data rest) with _ | r3 <;>
        rw [hlit] at h
      · exact Option.noConfusion h
      · exact takeDigits1_spec h
    · rw [if_neg hc] at h
      exact Option.noConfusion h

theorem matchGroupAt_digits {s ds : List Char} (h : matchGroupAt s = some ds) :
    ds ≠ [] ∧ ds.all Char.isDigit = true := by
  cases s with
  | nil => exact Option.noConfusion h
  | cons c rest =>
    simp only [matchGroupAt] at h
    by_cases hc : c = '?' ∨ c = '&'
    · rw [if_pos hc] at h
      rcases hlit : matchLiteralCI "groupcontentno=".data rest with _ | r3 <;>
        rw [hlit] at h
      · exact Option.noConfusion h
      · exact takeDigits1_spec h
    · rw [if_neg hc] at h
      exact Option.noConfusion h

theorem searchList_some {f : List Char → Option α} {s : List Char} {r : α}
    (h : BotDB.searchList f s = some r) : ∃ t, f t = some r := by
  induction s with
  | nil => exact ⟨[], h⟩
  | cons c cs ih =>
    unfold BotDB.searchList at h
    split at h
    · rename_i r2 heq
      cases h
      exact ⟨c :: cs, heq⟩
    · exact ih h

theorem md5hexChars_length (msg : List Nat) : (md5hexChars msg).length = 32 := by
  unfold md5hexChars
  simp [le4, byteHex]

/-- **C6** (identity assignment priority order): `_generate_stable_id`
returns `source` plus the numeric token when the URL carries a whitelisted
board-item query parameter (`boardNo` first, then `groupContentNo`; the token
is a nonempty digit string); otherwise `source` plus a `"url"` marker plus
the first 12 of the 32 hex characters of the MD5 of the URL.  The timestamped
`error` fallback requires an internal exception, which the (pure, total)
try-body never raises, so the result never depends on the wall clock
parameter. -/
theorem claim6_identity_priority (url source : String) (now : Nat) :
    (∀ ds, BotDB.searchList matchBoardAt url.data = some ds →
        generate_stable_id url source now = source ++ "_" ++ String.mk ds ∧
          ds ≠ [] ∧ ds.all Char.isDigit = true) ∧
      (BotDB.searchList matchBoardAt url.data = none →
        ∀ ds, BotDB.searchList matchGroupAt url.data = some ds →
          generate_stable_id url source now = source ++ "_" ++ String.mk ds ∧
            ds ≠ [] ∧ ds.all Char.isDigit = true) ∧
      (BotDB.searchList matchBoardAt url.data = none →
        BotDB.searchList matchGroupAt url.data = none →
          generate_stable_id url source now =
            source ++ "_url_" ++
              String.mk ((md5hexChars (utf8Bytes url.data)).take 12) ∧
            (md5hexChars (utf8Bytes url.data)).length = 32) := by
  refine ⟨?_, ?_, ?_⟩
  · intro ds h
    obtain ⟨t, ht⟩ := searchList_some h
    refine ⟨?_, matchBoardAt_digits ht⟩
    unfold generate_stable_id generate_stable_idBody
    rw [h]
  · intro h1 ds h2
    obtain ⟨t, ht⟩ := searchList_some h2
    refine ⟨?_, matchGroupAt_digits ht⟩
    unfold generate_stable_id generate_stable_idBody
    rw [h1, h2]
  · intro h1 h2
    refine ⟨?_, md5hexChars_length _⟩
    unfold generate_stable_id generate_stable_idBody
    rw [h1, h2]

theorem claim6_identity_priority_witness :
    generate_stable_id
        "https://www.kr.playblackdesert.com/News/Detail?boardNo=123"
        "korean" 0 = "korean_123" ∧
      generate_stable_id
        "https://blackdesert.pearlabyss.com/Detail?groupContentNo=4567"
        "globallab" 5 = "globallab_4567" ∧
      generate_stable_id "https://example.com/notice/42" "korean" 7 =
        "korean" ++ "_url_" ++
          String.mk ((md5hexChars
            (utf8Bytes ("https://example.com/notice/42" : String).data)).take 12) := by
  refine ⟨?_, ?_, ?_⟩
  · have h := (claim6_identity_priority
      "https://www.kr.playblackdesert.com/News/Detail?boardNo=123"
      "korean" 0).1 ("123" : String).data (by decide)
    rw [h.1]
    decide
  · have h := (claim6_identity_priority
      "https://blackdesert.pearlabyss.com/Detail?groupContentNo=4567"
      "globallab" 5).2.1 (by decide) ("4567" : String).data (by decide)
    rw [h.1]
    decide
  · exact ((claim6_identity_priority "https://example.com/notice/42"
      "korean" 7).2.2 (by decide) (by decide)).1

/-- **C7** (identity stability): `_generate_stable_id` is a pure function of
`(url, source)`: its try-body is total, the except branch — the only place
the wall clock enters — is dead, and so two calls at arbitrary different
times return the same value. -/
theorem claim7_identity_stability (url source : String) (t1 t2 : Nat) :
    generate_stable_id url source t1 = generate_stable_id url source t2 := rfl

end LinkExtractor
